import Mathlib

/-!
A shallow embedding of the zero-capacity rendezvous channel (src/src/zero.rs).

The Rust source implements a closable, multi-producer/multi-consumer rendezvous
channel.  Two FIFO wait queues of stack-resident `Blocked` records (thread
handle, one-shot value cell, `ready` flag) are guarded by one mutex; `closed`
and the two length hints are SeqCst atomics.

The embedding models a concurrent execution as an interleaving of atomic
steps, one step per lock-protected critical section or per single atomic
access outside the lock (the pre-lock `closed` fast-check, the wait-loop
observations).  Since every atomic in the source uses SeqCst and every queue
mutation happens under the one mutex, every real execution is one such
interleaving of these grains.  Parking is not a state change (a parked thread
simply takes no step until its next observation), so the wait loop is the pair
of observation steps `ready`/`closed` plus the nondeterministic deadline.

Ghost instrumentation (never read by the modelled code itself):
* each slot records the list of agents that performed a `ready.store(true)`
  (the `signal` call sites), newest first;
* `pairedSenders` / `pairedReceivers` log the slot ids dequeued for pairing,
  in pairing order; slot ids are allocated in arrival order, so id order is
  arrival order;
* `unparked` logs every `unpark` call;
* `panicked` records whether the `unwrap` inside `Blocked::take` ever saw an
  empty cell.
-/

namespace ZeroChannel

/-- Mirror of `TrySendError<T>` from the surrounding error module
(referenced by `use super::TrySendError`). -/
inductive TrySendError (T : Type) where
  | Full : T → TrySendError T
  | Disconnected : T → TrySendError T
deriving DecidableEq

/-- Mirror of `SendTimeoutError<T>`. -/
inductive SendTimeoutError (T : Type) where
  | Timeout : T → SendTimeoutError T
  | Disconnected : T → SendTimeoutError T
deriving DecidableEq

/-- Mirror of the tuple struct `SendError<T>(pub T)`. -/
structure SendError (T : Type) where
  v : T
deriving DecidableEq

/-- Mirror of `TryRecvError`. -/
inductive TryRecvError where
  | Empty
  | Disconnected
deriving DecidableEq

/-- Mirror of `RecvTimeoutError`. -/
inductive RecvTimeoutError where
  | Timeout
  | Disconnected
deriving DecidableEq

/-- Mirror of the unit struct `RecvError`. -/
inductive RecvError where
  | mk
deriving DecidableEq

/-- Which side a `Blocked` record was created for. -/
inductive Role where
  | sender
  | receiver
deriving DecidableEq

/-- Ghost: the agent performing a `ready.store(true, SeqCst)` (the body of
`Blocked::signal`): the handoff peer (the thread that dequeued the slot from
the opposite side), the slot's own thread, or the closing thread. -/
inductive StoreAgent where
  | peer
  | owner
  | closer
deriving DecidableEq

/-- Model of `Blocked<T>`: the one-shot cell `data: UnsafeCell<Option<T>>` and
the flag `ready: AtomicBool`.  The `thread: Thread` handle is represented by
the slot id itself in the ghost `unparked` log.  `role` and `readyStores` are
ghost fields. -/
structure Slot (T : Type) where
  role : Role
  cell : Option T
  ready : Bool
  readyStores : List StoreAgent
deriving DecidableEq

/-- Model of `Blocked::signal`: `self.ready.store(true, SeqCst); thread.unpark()`.
The agent argument is ghost. -/
def Slot.signal (s : Slot T) (a : StoreAgent) : Slot T :=
  { s with ready := true, readyStores := a :: s.readyStores }

/-- Model of `Blocked::put`: `*self.data.get() = Some(t); self.signal()`. -/
def Slot.put (s : Slot T) (t : T) (a : StoreAgent) : Slot T :=
  ({ s with cell := some t }).signal a

/-- Model of the `Option::take().unwrap()` inside `Blocked::take`: the Bool is
true when the unwrap would panic (cell already empty). -/
def unwrapD [Inhabited T] : Option T → T × Bool
  | some v => (v, false)
  | none => (default, true)

/-- Model of `Blocked::take`: `let value = self.data.take().unwrap(); self.signal(); value`. -/
def Slot.take [Inhabited T] (s : Slot T) (a : StoreAgent) : (T × Bool) × Slot T :=
  (unwrapD s.cell, ({ s with cell := none }).signal a)

deriving instance DecidableEq for Except

/-- Result type of `send_until` (`Result<(), SendTimeoutError<T>>`). -/
abbrev SendUntilResult (T : Type) := Except (SendTimeoutError T) Unit

/-- Result type of `recv_until` (`Result<T, RecvTimeoutError>`). -/
abbrev RecvUntilResult (T : Type) := Except RecvTimeoutError T

/-- Control point of one in-flight blocking call.  `dl` records whether the
call has a deadline (`deadline: Option<Instant>` being `Some`); `v0` on the
send states is the ghost copy of the value the caller passed in. -/
inductive OpState (T : Type) where
  | sendStart (v : T) (dl : Bool)
  | sendLock (v : T) (dl : Bool)
  | sendWait (sid : Nat) (dl : Bool) (v0 : T)
  | sendCancel (sid : Nat) (dl : Bool) (v0 : T)
  | sendDone (dl : Bool) (v0 : T) (r : SendUntilResult T)
  | recvStart (dl : Bool)
  | recvLock (dl : Bool)
  | recvWait (sid : Nat) (dl : Bool)
  | recvCancel (sid : Nat) (dl : Bool)
  | recvDone (dl : Bool) (r : RecvUntilResult T)
deriving DecidableEq

/-- The slot id owned by an op that is currently registered in a wait queue
(or cancelling). -/
def OpState.ownSid : OpState T → Option Nat
  | .sendWait sid _ _ => some sid
  | .sendCancel sid _ _ => some sid
  | .recvWait sid _ => some sid
  | .recvCancel sid _ => some sid
  | _ => none

/-- State of `Queue<T>` plus all slots ever created, the control points of all
operations ever spawned, and the ghost logs.  `senders`/`receivers` are the
two `VecDeque<*const Blocked<T>>` (front of the deque = head of the list);
`senders_len`/`receivers_len` are the atomic hints; `closed` the atomic flag.
Slot ids are allocated consecutively (`nSlots` is the next fresh id), so a
smaller id means an earlier arrival. -/
structure Config (T : Type) where
  senders : List Nat
  receivers : List Nat
  closed : Bool
  senders_len : Nat
  receivers_len : Nat
  slots : Nat → Slot T
  nSlots : Nat
  ops : Nat → Option (OpState T)
  nOps : Nat
  pairedSenders : List Nat
  pairedReceivers : List Nat
  unparked : List Nat
  panicked : Bool

/-- A fresh, untouched slot record (also the content of unallocated ids). -/
def blankSlot (T : Type) : Slot T :=
  { role := .receiver, cell := none, ready := false, readyStores := [] }

/-- Model of `Queue::new`. -/
def init (T : Type) : Config T :=
  { senders := []
    receivers := []
    closed := false
    senders_len := 0
    receivers_len := 0
    slots := fun _ => blankSlot T
    nSlots := 0
    ops := fun _ => none
    nOps := 0
    pairedSenders := []
    pairedReceivers := []
    unparked := []
    panicked := false }

def Config.getSlot (c : Config T) (sid : Nat) : Slot T :=
  c.slots sid

def Config.setSlot (c : Config T) (sid : Nat) (s : Slot T) : Config T :=
  { c with slots := fun j => if j = sid then s else c.slots j }

def Config.setOp (c : Config T) (i : Nat) (o : OpState T) : Config T :=
  { c with ops := fun j => if j = i then some o else c.ops j }

@[simp] lemma getSlot_setSlot (c : Config T) (f sid : Nat) (s : Slot T) :
    (c.setSlot f s).getSlot sid = if sid = f then s else c.getSlot sid := by
  simp [Config.setSlot, Config.getSlot]

@[simp] lemma slots_setSlot (c : Config T) (f sid : Nat) (s : Slot T) :
    (c.setSlot f s).slots sid = if sid = f then s else c.slots sid := by
  simp [Config.setSlot]

@[simp] lemma ops_setOp (c : Config T) (i j : Nat) (o : OpState T) :
    (c.setOp i o).ops j = if j = i then some o else c.ops j := rfl

@[simp] lemma getSlot_setOp (c : Config T) (i sid : Nat) (o : OpState T) :
    (c.setOp i o).getSlot sid = c.getSlot sid := rfl

@[simp] lemma slots_setOp (c : Config T) (i sid : Nat) (o : OpState T) :
    (c.setOp i o).slots sid = c.slots sid := rfl

@[simp] lemma ops_setSlot (c : Config T) (f j : Nat) (s : Slot T) :
    (c.setSlot f s).ops j = c.ops j := rfl

@[simp] lemma senders_setSlot (c : Config T) (f : Nat) (s : Slot T) :
    (c.setSlot f s).senders = c.senders := rfl

@[simp] lemma receivers_setSlot (c : Config T) (f : Nat) (s : Slot T) :
    (c.setSlot f s).receivers = c.receivers := rfl

@[simp] lemma closed_setSlot (c : Config T) (f : Nat) (s : Slot T) :
    (c.setSlot f s).closed = c.closed := rfl

@[simp] lemma nSlots_setSlot (c : Config T) (f : Nat) (s : Slot T) :
    (c.setSlot f s).nSlots = c.nSlots := rfl

@[simp] lemma nOps_setSlot (c : Config T) (f : Nat) (s : Slot T) :
    (c.setSlot f s).nOps = c.nOps := rfl

@[simp] lemma senders_setOp (c : Config T) (i : Nat) (o : OpState T) :
    (c.setOp i o).senders = c.senders := rfl

@[simp] lemma receivers_setOp (c : Config T) (i : Nat) (o : OpState T) :
    (c.setOp i o).receivers = c.receivers := rfl

@[simp] lemma closed_setOp (c : Config T) (i : Nat) (o : OpState T) :
    (c.setOp i o).closed = c.closed := rfl

@[simp] lemma nSlots_setOp (c : Config T) (i : Nat) (o : OpState T) :
    (c.setOp i o).nSlots = c.nSlots := rfl

@[simp] lemma nOps_setOp (c : Config T) (i : Nat) (o : OpState T) :
    (c.setOp i o).nOps = c.nOps := rfl

@[simp] lemma senders_len_setOp (c : Config T) (i : Nat) (o : OpState T) :
    (c.setOp i o).senders_len = c.senders_len := rfl

@[simp] lemma receivers_len_setOp (c : Config T) (i : Nat) (o : OpState T) :
    (c.setOp i o).receivers_len = c.receivers_len := rfl

@[simp] lemma senders_len_setSlot (c : Config T) (f : Nat) (s : Slot T) :
    (c.setSlot f s).senders_len = c.senders_len := rfl

@[simp] lemma receivers_len_setSlot (c : Config T) (f : Nat) (s : Slot T) :
    (c.setSlot f s).receivers_len = c.receivers_len := rfl

@[simp] lemma panicked_setOp (c : Config T) (i : Nat) (o : OpState T) :
    (c.setOp i o).panicked = c.panicked := rfl

@[simp] lemma panicked_setSlot (c : Config T) (f : Nat) (s : Slot T) :
    (c.setSlot f s).panicked = c.panicked := rfl

@[simp] lemma pairedSenders_setOp (c : Config T) (i : Nat) (o : OpState T) :
    (c.setOp i o).pairedSenders = c.pairedSenders := rfl

@[simp] lemma pairedReceivers_setOp (c : Config T) (i : Nat) (o : OpState T) :
    (c.setOp i o).pairedReceivers = c.pairedReceivers := rfl

@[simp] lemma pairedSenders_setSlot (c : Config T) (f : Nat) (s : Slot T) :
    (c.setSlot f s).pairedSenders = c.pairedSenders := rfl

@[simp] lemma pairedReceivers_setSlot (c : Config T) (f : Nat) (s : Slot T) :
    (c.setSlot f s).pairedReceivers = c.pairedReceivers := rfl

/-- Shared effect of dequeuing the front receiver slot `f` and handing it `v`:
`lock.receivers.pop_front()` succeeded, `(*f).put(value)`,
`self.receivers_len.store(lock.receivers.len(), SeqCst)`.  Used by `try_send`
and by the paired branch of `send_until`. -/
def pairReceiver (c : Config T) (f : Nat) (rest : List Nat) (v : T) : Config T :=
  { c.setSlot f ((c.getSlot f).put v .peer) with
    receivers := rest
    receivers_len := rest.length
    pairedReceivers := c.pairedReceivers ++ [f]
    unparked := c.unparked ++ [f] }

/-- Shared effect of dequeuing the front sender slot `f` and taking its value:
`lock.senders.pop_front()` succeeded,
`self.senders_len.store(lock.senders.len(), SeqCst)`, `(*f).take()`.  The
first component is the taken value together with the would-be-panic flag of
the unwrap.  Used by `try_recv` and by the paired branch of `recv_until`. -/
def pairSender [Inhabited T] (c : Config T) (f : Nat) (rest : List Nat) :
    (T × Bool) × Config T :=
  let r := (c.getSlot f).take .peer
  (r.1,
   { c.setSlot f r.2 with
     senders := rest
     senders_len := rest.length
     pairedSenders := c.pairedSenders ++ [f]
     unparked := c.unparked ++ [f]
     panicked := c.panicked || r.1.2 })

/-- Model of `Queue::try_send` (one atomic grain: the fast checks and the
critical section see the same serialized state). -/
def try_send (c : Config T) (v : T) : Except (TrySendError T) Unit × Config T :=
  if c.closed then (.error (.Disconnected v), c)
  else if c.receivers_len == 0 then (.error (.Full v), c)
  else if c.closed then (.error (.Disconnected v), c)
  else
    match c.receivers with
    | f :: rest => (.ok (), pairReceiver c f rest v)
    | [] => (.error (.Full v), c)

/-- Model of `Queue::try_recv`. -/
def try_recv [Inhabited T] (c : Config T) : Except TryRecvError T × Config T :=
  if c.closed then (.error .Disconnected, c)
  else if c.senders_len == 0 then (.error .Empty, c)
  else if c.closed then (.error .Disconnected, c)
  else
    match c.senders with
    | f :: rest =>
      let r := pairSender c f rest
      (.ok r.1.1, r.2)
    | [] => (.error .Empty, c)

/-- Model of the pre-lock fast check of `send_until` (line 101): load `closed`;
if set, return `Disconnected(value)`, otherwise proceed to the lock. -/
def send_until_entry (c : Config T) (i : Nat) (v : T) (dl : Bool) : Config T :=
  if c.closed then c.setOp i (.sendDone dl v (.error (.Disconnected v)))
  else c.setOp i (.sendLock v dl)

/-- Model of the first critical section of `send_until` (lines 107-126):
recheck `closed`; try to dequeue a receiver and `put`; otherwise create the
`Blocked` record on the stack (fresh id `c.nSlots`), `push_back` it onto
`senders` and store the hint. -/
def send_until_pair (c : Config T) (i : Nat) (v : T) (dl : Bool) : Config T :=
  if c.closed then c.setOp i (.sendDone dl v (.error (.Disconnected v)))
  else
    match c.receivers with
    | f :: rest => (pairReceiver c f rest v).setOp i (.sendDone dl v (.ok ()))
    | [] =>
      { (c.setSlot c.nSlots
          { role := .sender, cell := some v, ready := false, readyStores := [] }).setOp
            i (.sendWait c.nSlots dl v) with
        nSlots := c.nSlots + 1
        senders := c.senders ++ [c.nSlots]
        senders_len := (c.senders ++ [c.nSlots]).length }

/-- Model of the final critical section of `send_until` (lines 150-165):
recheck `ready`; if still false, `retain` away the own slot, store the hint,
`take` the value back out of the own cell, and report `Disconnected` or
`Timeout` around the current `closed`. -/
def send_until_cancel [Inhabited T] (c : Config T) (i : Nat) (sid : Nat) (dl : Bool)
    (v0 : T) : Config T :=
  if (c.getSlot sid).ready then c.setOp i (.sendDone dl v0 (.ok ()))
  else
    let senders2 := c.senders.filter (fun s => s ≠ sid)
    let r := (c.getSlot sid).take .owner
    { (c.setSlot sid r.2).setOp i
        (.sendDone dl v0
          (.error (if c.closed then .Disconnected r.1.1 else .Timeout r.1.1))) with
      senders := senders2
      senders_len := senders2.length
      unparked := c.unparked ++ [sid]
      panicked := c.panicked || r.1.2 }

/-- Model of the pre-lock fast check of `recv_until` (line 204). -/
def recv_until_entry (c : Config T) (i : Nat) (dl : Bool) : Config T :=
  if c.closed then c.setOp i (.recvDone dl (.error .Disconnected))
  else c.setOp i (.recvLock dl)

/-- Model of the first critical section of `recv_until` (lines 210-228):
recheck `closed`; try to dequeue a sender, store the hint and `take`;
otherwise create the `Blocked` record (empty cell), `push_back` it onto
`receivers` and store the hint. -/
def recv_until_pair [Inhabited T] (c : Config T) (i : Nat) (dl : Bool) : Config T :=
  if c.closed then c.setOp i (.recvDone dl (.error .Disconnected))
  else
    match c.senders with
    | f :: rest =>
      let r := pairSender c f rest
      r.2.setOp i (.recvDone dl (.ok r.1.1))
    | [] =>
      { (c.setSlot c.nSlots
          { role := .receiver, cell := none, ready := false, readyStores := [] }).setOp
            i (.recvWait c.nSlots dl) with
        nSlots := c.nSlots + 1
        receivers := c.receivers ++ [c.nSlots]
        receivers_len := (c.receivers ++ [c.nSlots]).length }

/-- Model of the wait-loop success of `recv_until` (lines 231-233): the owner
observed `ready` and takes the delivered value out of its own cell. -/
def recv_until_ready [Inhabited T] (c : Config T) (i : Nat) (sid : Nat) (dl : Bool) :
    Config T :=
  let r := (c.getSlot sid).take .owner
  { (c.setSlot sid r.2).setOp i (.recvDone dl (.ok r.1.1)) with
    unparked := c.unparked ++ [sid]
    panicked := c.panicked || r.1.2 }

/-- Model of the final critical section of `recv_until` (lines 252-265):
recheck `ready` (taking the value if a sender won the race); otherwise
`retain` away the own slot, store the hint, and report `Disconnected` or
`Timeout` around the current `closed`. -/
def recv_until_cancel [Inhabited T] (c : Config T) (i : Nat) (sid : Nat) (dl : Bool) :
    Config T :=
  if (c.getSlot sid).ready then recv_until_ready c i sid dl
  else
    let receivers2 := c.receivers.filter (fun s => s ≠ sid)
    { c.setOp i
        (.recvDone dl (.error (if c.closed then .Disconnected else .Timeout))) with
      receivers := receivers2
      receivers_len := receivers2.length }

/-- Model of `Queue::close` (one atomic grain: the fast check, the swap and
the drain are serialized; on the already-closed paths nothing changes).  The
drain unparks every waiter but touches neither cells nor `ready` flags; both
hints are then stored from the drained (empty) queues. -/
def close (c : Config T) : Bool × Config T :=
  if c.closed then (false, c)
  else
    (true,
     { c with
       closed := true
       senders := []
       receivers := []
       unparked := c.unparked ++ c.senders ++ c.receivers
       receivers_len := 0
       senders_len := 0 })

/-- Model of `Queue::is_closed`. -/
def is_closed (c : Config T) : Bool :=
  c.closed

/-- Model of the result mapping in `Queue::send` (lines 172-178): `Timeout` is
the `unreachable!()` arm, rendered as `none`. -/
def send_result (r : SendUntilResult T) : Option (Except (SendError T) Unit) :=
  match r with
  | .ok () => some (.ok ())
  | .error (.Disconnected v) => some (.error ⟨v⟩)
  | .error (.Timeout _) => none

/-- Model of the result mapping in `Queue::recv` (lines 272-278). -/
def recv_result (r : RecvUntilResult T) : Except RecvError T :=
  match r with
  | .ok v => .ok v
  | .error _ => .error .mk

/-- Effect of spawning a fresh `send_until(v, deadline)` call. -/
def spawnSend (c : Config T) (v : T) (dl : Bool) : Config T :=
  { c.setOp c.nOps (.sendStart v dl) with nOps := c.nOps + 1 }

/-- Effect of spawning a fresh `recv_until(deadline)` call. -/
def spawnRecv (c : Config T) (dl : Bool) : Config T :=
  { c.setOp c.nOps (.recvStart dl) with nOps := c.nOps + 1 }

/-- One atomic step of the interleaved system.  Each constructor is one grain
of one thread: a lock-protected critical section, a single pre-lock atomic
load, or one wait-loop observation.  `send_break`/`recv_break` leave the wait
loop, which the source does when it observes `closed` or (only with a
deadline) when the deadline has elapsed; elapsing is nondeterministic here
since the model keeps no clock. -/
inductive Step [Inhabited T] : Config T → Config T → Prop where
  | spawn_send (c : Config T) (v : T) (dl : Bool) :
      Step c (spawnSend c v dl)
  | spawn_recv (c : Config T) (dl : Bool) :
      Step c (spawnRecv c dl)
  | send_entry (c : Config T) (i : Nat) (v : T) (dl : Bool)
      (h : c.ops i = some (.sendStart v dl)) :
      Step c (send_until_entry c i v dl)
  | send_pair (c : Config T) (i : Nat) (v : T) (dl : Bool)
      (h : c.ops i = some (.sendLock v dl)) :
      Step c (send_until_pair c i v dl)
  | send_ready (c : Config T) (i : Nat) (sid : Nat) (dl : Bool) (v0 : T)
      (h : c.ops i = some (.sendWait sid dl v0))
      (hr : (c.getSlot sid).ready = true) :
      Step c (c.setOp i (.sendDone dl v0 (.ok ())))
  | send_break (c : Config T) (i : Nat) (sid : Nat) (dl : Bool) (v0 : T)
      (h : c.ops i = some (.sendWait sid dl v0))
      (hb : c.closed = true ∨ dl = true) :
      Step c (c.setOp i (.sendCancel sid dl v0))
  | send_cancel (c : Config T) (i : Nat) (sid : Nat) (dl : Bool) (v0 : T)
      (h : c.ops i = some (.sendCancel sid dl v0)) :
      Step c (send_until_cancel c i sid dl v0)
  | recv_entry (c : Config T) (i : Nat) (dl : Bool)
      (h : c.ops i = some (.recvStart dl)) :
      Step c (recv_until_entry c i dl)
  | recv_pair (c : Config T) (i : Nat) (dl : Bool)
      (h : c.ops i = some (.recvLock dl)) :
      Step c (recv_until_pair c i dl)
  | recv_ready (c : Config T) (i : Nat) (sid : Nat) (dl : Bool)
      (h : c.ops i = some (.recvWait sid dl))
      (hr : (c.getSlot sid).ready = true) :
      Step c (recv_until_ready c i sid dl)
  | recv_break (c : Config T) (i : Nat) (sid : Nat) (dl : Bool)
      (h : c.ops i = some (.recvWait sid dl))
      (hb : c.closed = true ∨ dl = true) :
      Step c (c.setOp i (.recvCancel sid dl))
  | recv_cancel (c : Config T) (i : Nat) (sid : Nat) (dl : Bool)
      (h : c.ops i = some (.recvCancel sid dl)) :
      Step c (recv_until_cancel c i sid dl)
  | try_send_step (c : Config T) (v : T) :
      Step c (try_send c v).2
  | try_recv_step (c : Config T) :
      Step c (try_recv c).2
  | close_step (c : Config T) :
      Step c (close c).2

/-- A configuration reachable from the fresh queue by some interleaving. -/
def Reachable [Inhabited T] (c : Config T) : Prop :=
  Relation.ReflTransGen Step (init T) c

/-- Per-operation part of the reachability invariant: what is true of one
in-flight call's control point, as a predicate over the global state. -/
def OpInv (c : Config T) : OpState T → Prop
  | .sendWait sid _ v0 =>
      sid < c.nSlots ∧ (c.getSlot sid).role = .sender ∧
      ((c.getSlot sid).ready = false → (c.getSlot sid).cell = some v0)
  | .sendCancel sid dl v0 =>
      sid < c.nSlots ∧ (c.getSlot sid).role = .sender ∧
      ((c.getSlot sid).ready = false → (c.getSlot sid).cell = some v0) ∧
      (dl = false → c.closed = true)
  | .recvWait sid _ =>
      sid < c.nSlots ∧ (c.getSlot sid).role = .receiver ∧
      ((c.getSlot sid).readyStores = [] ∨
        ((c.getSlot sid).readyStores = [.peer] ∧ ((c.getSlot sid).cell).isSome = true))
  | .recvCancel sid dl =>
      sid < c.nSlots ∧ (c.getSlot sid).role = .receiver ∧
      ((c.getSlot sid).readyStores = [] ∨
        ((c.getSlot sid).readyStores = [.peer] ∧ ((c.getSlot sid).cell).isSome = true)) ∧
      (dl = false → c.closed = true)
  | .sendDone dl v0 r =>
      (∀ v, r = .error (.Timeout v) → v = v0 ∧ dl = true) ∧
      (∀ v, r = .error (.Disconnected v) → v = v0)
  | .recvDone dl r => r = .error .Timeout → dl = true
  | _ => True

/-- The reachability invariant of the rendezvous queue. -/
structure Inv (c : Config T) : Prop where
  lenS : c.senders_len = c.senders.length
  lenR : c.receivers_len = c.receivers.length
  oneSide : c.senders = [] ∨ c.receivers = []
  sortedS : c.senders.Pairwise (· < ·)
  sortedR : c.receivers.Pairwise (· < ·)
  boundS : ∀ sid ∈ c.senders, sid < c.nSlots
  boundR : ∀ sid ∈ c.receivers, sid < c.nSlots
  queueS : ∀ sid ∈ c.senders,
      (c.getSlot sid).role = .sender ∧ (c.getSlot sid).ready = false
  queueR : ∀ sid ∈ c.receivers,
      (c.getSlot sid).role = .receiver ∧ (c.getSlot sid).ready = false ∧
      (c.getSlot sid).cell = none
  senderCell : ∀ sid, (c.getSlot sid).role = .sender →
      (c.getSlot sid).ready = false → ((c.getSlot sid).cell).isSome = true
  slotsFresh : ∀ sid, c.nSlots ≤ sid → c.getSlot sid = blankSlot T
  storesMono : ∀ sid, (c.getSlot sid).ready = true ↔ (c.getSlot sid).readyStores ≠ []
  storesNoCloser : ∀ sid, StoreAgent.closer ∉ (c.getSlot sid).readyStores
  storesSender : ∀ sid, (c.getSlot sid).role = .sender →
      (c.getSlot sid).readyStores = [] ∨ (c.getSlot sid).readyStores = [.peer] ∨
      (c.getSlot sid).readyStores = [.owner]
  storesReceiver : ∀ sid, (c.getSlot sid).role = .receiver →
      (c.getSlot sid).readyStores = [] ∨ (c.getSlot sid).readyStores = [.peer] ∨
      (c.getSlot sid).readyStores = [.owner, .peer]
  opsFresh : ∀ i, c.nOps ≤ i → c.ops i = none
  opsInv : ∀ i o, c.ops i = some o → OpInv c o
  ownUnique : ∀ i j oi oj sid, c.ops i = some oi → c.ops j = some oj →
      oi.ownSid = some sid → oj.ownSid = some sid → i = j
  sortedPS : c.pairedSenders.Pairwise (· < ·)
  sortedPR : c.pairedReceivers.Pairwise (· < ·)
  pairedBoundS : ∀ x ∈ c.pairedSenders, x < c.nSlots
  pairedBoundR : ∀ x ∈ c.pairedReceivers, x < c.nSlots
  pairedBeforeS : ∀ x ∈ c.pairedSenders, ∀ y ∈ c.senders, x < y
  pairedBeforeR : ∀ x ∈ c.pairedReceivers, ∀ y ∈ c.receivers, x < y
  panicFree : c.panicked = false

lemma inv_init : Inv (init T) := by
  constructor <;> simp [init, Config.getSlot, blankSlot, OpInv]

lemma lt_nOps_of_ops (c : Config T) (h : Inv c) {i : Nat} {o : OpState T}
    (hi : c.ops i = some o) : i < c.nOps := by
  by_contra hn
  rw [h.opsFresh i (Nat.le_of_not_lt hn)] at hi
  cases hi

set_option linter.unnecessarySimpa false in
lemma OpInv_congr {c c' : Config T} (o : OpState T)
    (hn : c'.nSlots = c.nSlots) (hs : c'.slots = c.slots)
    (hc : c'.closed = c.closed) (h : OpInv c o) : OpInv c' o := by
  cases o <;> simpa [OpInv, Config.getSlot, hn, hs, hc] using h

lemma inv_spawnSend (c : Config T) (v : T) (dl : Bool) (h : Inv c) :
    Inv (spawnSend c v dl) := by
  refine { h with opsFresh := ?_, opsInv := ?_, ownUnique := ?_ }
  · intro i hi
    simp only [spawnSend, ops_setOp] at *
    rw [if_neg (by omega)]
    exact h.opsFresh i (by omega)
  · intro i o hi
    refine OpInv_congr o rfl rfl rfl ?_
    simp only [spawnSend, ops_setOp] at hi
    split at hi
    · cases hi
      trivial
    · exact h.opsInv i o hi
  · intro a b oa ob sid ha hb hsa hsb
    simp only [spawnSend, ops_setOp] at ha hb
    by_cases hai : a = c.nOps <;> by_cases hbi : b = c.nOps
    · omega
    · rw [if_pos hai] at ha
      cases ha
      cases hsa
    · rw [if_pos hbi] at hb
      cases hb
      cases hsb
    · rw [if_neg hai] at ha
      rw [if_neg hbi] at hb
      exact h.ownUnique a b oa ob sid ha hb hsa hsb

lemma inv_spawnRecv (c : Config T) (dl : Bool) (h : Inv c) :
    Inv (spawnRecv c dl) := by
  refine { h with opsFresh := ?_, opsInv := ?_, ownUnique := ?_ }
  · intro i hi
    simp only [spawnRecv, ops_setOp] at *
    rw [if_neg (by omega)]
    exact h.opsFresh i (by omega)
  · intro i o hi
    refine OpInv_congr o rfl rfl rfl ?_
    simp only [spawnRecv, ops_setOp] at hi
    split at hi
    · cases hi
      trivial
    · exact h.opsInv i o hi
  · intro a b oa ob sid ha hb hsa hsb
    simp only [spawnRecv, ops_setOp] at ha hb
    by_cases hai : a = c.nOps <;> by_cases hbi : b = c.nOps
    · omega
    · rw [if_pos hai] at ha
      cases ha
      cases hsa
    · rw [if_pos hbi] at hb
      cases hb
      cases hsb
    · rw [if_neg hai] at ha
      rw [if_neg hbi] at hb
      exact h.ownUnique a b oa ob sid ha hb hsa hsb

lemma inv_setOp (c : Config T) (i : Nat) (o : OpState T) (h : Inv c)
    (hlt : i < c.nOps) (ho : OpInv c o)
    (hown : ∀ sid, o.ownSid = some sid →
      ∀ j oj, c.ops j = some oj → oj.ownSid = some sid → j = i) :
    Inv (c.setOp i o) := by
  refine { h with opsFresh := ?_, opsInv := ?_, ownUnique := ?_ }
  · intro j hj
    simp only [ops_setOp, nOps_setOp] at *
    rw [if_neg (by omega)]
    exact h.opsFresh j hj
  · intro j oj hj
    refine OpInv_congr oj rfl rfl rfl ?_
    simp only [ops_setOp] at hj
    split at hj
    · cases hj
      exact ho
    · exact h.opsInv j oj hj
  · intro a b oa ob sid ha hb hsa hsb
    simp only [ops_setOp] at ha hb
    by_cases hai : a = i <;> by_cases hbi : b = i
    · omega
    · rw [if_pos hai] at ha
      cases ha
      rw [if_neg hbi] at hb
      exact absurd (hown sid hsa b ob hb hsb) hbi
    · rw [if_pos hbi] at hb
      cases hb
      rw [if_neg hai] at ha
      exact absurd (hown sid hsb a oa ha hsa) hai
    · rw [if_neg hai] at ha
      rw [if_neg hbi] at hb
      exact h.ownUnique a b oa ob sid ha hb hsa hsb

lemma inv_pairReceiver (c : Config T) (f : Nat) (rest : List Nat) (v : T)
    (h : Inv c) (hq : c.receivers = f :: rest) :
    Inv (pairReceiver c f rest v) := by
  have hfR : f ∈ c.receivers := by
    rw [hq]
    exact List.mem_cons_self f rest
  have hrole : (c.slots f).role = .receiver := (h.queueR f hfR).1
  have hready : (c.slots f).ready = false := (h.queueR f hfR).2.1
  have hstores : (c.slots f).readyStores = [] := by
    by_contra hne
    have h2 := (h.storesMono f).2 hne
    simp only [Config.getSlot] at h2
    rw [h2] at hready
    cases hready
  have hfrest : ∀ y ∈ rest, f < y := by
    have hs := h.sortedR
    rw [hq] at hs
    exact (List.pairwise_cons.mp hs).1
  have hfn : f < c.nSlots := h.boundR f hfR
  have hsempty : c.senders = [] := by
    rcases h.oneSide with hs | hr
    · exact hs
    · rw [hq] at hr
      cases hr
  refine { h with
    lenR := ?_
    oneSide := ?_
    sortedR := ?_
    boundR := ?_
    queueS := ?_
    queueR := ?_
    senderCell := ?_
    slotsFresh := ?_
    storesMono := ?_
    storesNoCloser := ?_
    storesSender := ?_
    storesReceiver := ?_
    opsInv := ?_
    sortedPR := ?_
    pairedBoundR := ?_
    pairedBeforeR := ?_ }
  · rfl
  · left
    simpa [pairReceiver] using hsempty
  · simp only [pairReceiver]
    exact (List.pairwise_cons.mp (hq ▸ h.sortedR)).2
  · intro sid hsid
    simp only [pairReceiver, nSlots_setSlot] at hsid ⊢
    exact h.boundR sid (by rw [hq]; exact List.mem_cons_of_mem _ hsid)
  · intro sid hsid
    simp only [pairReceiver, senders_setSlot] at hsid
    rw [hsempty] at hsid
    cases hsid
  · intro sid hsid
    simp only [pairReceiver] at hsid
    simp only [pairReceiver, Config.getSlot, slots_setSlot]
    rw [if_neg (hfrest sid hsid).ne']
    exact h.queueR sid (by rw [hq]; exact List.mem_cons_of_mem _ hsid)
  · intro sid
    simp only [pairReceiver, Config.getSlot, slots_setSlot]
    by_cases hsf : sid = f
    · rw [if_pos hsf]
      simp [Slot.put, Slot.signal]
    · rw [if_neg hsf]
      exact h.senderCell sid
  · intro sid hsid
    simp only [pairReceiver, nSlots_setSlot] at hsid
    simp only [pairReceiver, Config.getSlot, slots_setSlot]
    rw [if_neg (by omega)]
    exact h.slotsFresh sid hsid
  · intro sid
    simp only [pairReceiver, Config.getSlot, slots_setSlot]
    by_cases hsf : sid = f
    · rw [if_pos hsf]
      simp [Slot.put, Slot.signal]
    · rw [if_neg hsf]
      exact h.storesMono sid
  · intro sid
    simp only [pairReceiver, Config.getSlot, slots_setSlot]
    by_cases hsf : sid = f
    · rw [if_pos hsf]
      simp [Slot.put, Slot.signal, hstores]
    · rw [if_neg hsf]
      exact h.storesNoCloser sid
  · intro sid
    simp only [pairReceiver, Config.getSlot, slots_setSlot]
    by_cases hsf : sid = f
    · rw [if_pos hsf]
      simp [Slot.put, Slot.signal, hrole]
    · rw [if_neg hsf]
      exact h.storesSender sid
  · intro sid
    simp only [pairReceiver, Config.getSlot, slots_setSlot]
    by_cases hsf : sid = f
    · rw [if_pos hsf]
      simp [Slot.put, Slot.signal, hstores]
    · rw [if_neg hsf]
      exact h.storesReceiver sid
  · intro j oj hj
    simp only [pairReceiver, ops_setSlot] at hj
    have old := h.opsInv j oj hj
    cases oj with
    | sendWait sid dl' v0 =>
      obtain ⟨hb, hr, hc⟩ := old
      have hne : sid ≠ f := by
        intro he
        rw [he] at hr
        simp only [Config.getSlot] at hr
        rw [hrole] at hr
        cases hr
      refine ⟨hb, ?_, ?_⟩ <;>
        simp only [pairReceiver, Config.getSlot, slots_setSlot, if_neg hne]
      · exact hr
      · exact hc
    | sendCancel sid dl' v0 =>
      obtain ⟨hb, hr, hc, hcl⟩ := old
      have hne : sid ≠ f := by
        intro he
        rw [he] at hr
        simp only [Config.getSlot] at hr
        rw [hrole] at hr
        cases hr
      refine ⟨hb, ?_, ?_, ?_⟩ <;>
        simp only [pairReceiver, Config.getSlot, slots_setSlot, if_neg hne]
      · exact hr
      · exact hc
      · exact hcl
    | recvWait sid dl' =>
      obtain ⟨hb, hr, hc⟩ := old
      by_cases hsf : sid = f
      · subst hsf
        refine ⟨hb, ?_, ?_⟩ <;>
          simp only [pairReceiver, Config.getSlot, slots_setSlot, if_pos rfl]
        · simpa [Slot.put, Slot.signal] using hrole
        · right
          simp [Slot.put, Slot.signal, hstores]
      · refine ⟨hb, ?_, ?_⟩ <;>
          simp only [pairReceiver, Config.getSlot, slots_setSlot, if_neg hsf]
        · exact hr
        · exact hc
    | recvCancel sid dl' =>
      obtain ⟨hb, hr, hc, hcl⟩ := old
      by_cases hsf : sid = f
      · subst hsf
        refine ⟨hb, ?_, ?_, ?_⟩ <;>
          simp only [pairReceiver, Config.getSlot, slots_setSlot, if_pos rfl]
        · simpa [Slot.put, Slot.signal] using hrole
        · right
          simp [Slot.put, Slot.signal, hstores]
        · exact hcl
      · refine ⟨hb, ?_, ?_, ?_⟩ <;>
          simp only [pairReceiver, Config.getSlot, slots_setSlot, if_neg hsf]
        · exact hr
        · exact hc
        · exact hcl
    | sendStart v' dl' => trivial
    | sendLock v' dl' => trivial
    | recvStart dl' => trivial
    | recvLock dl' => trivial
    | sendDone dl' v0 r => exact old
    | recvDone dl' r => exact old
  · simp only [pairReceiver]
    refine List.pairwise_append.mpr ⟨h.sortedPR, by simp, ?_⟩
    intro x hx y hy
    simp only [List.mem_singleton] at hy
    rw [hy]
    exact h.pairedBeforeR x hx f hfR
  · intro x hx
    simp only [pairReceiver, List.mem_append, List.mem_singleton] at hx
    rcases hx with hx | hx
    · exact h.pairedBoundR x hx
    · subst hx
      simpa [pairReceiver] using hfn
  · intro x hx y hy
    simp only [pairReceiver] at hx hy
    simp only [List.mem_append, List.mem_singleton] at hx
    rcases hx with hx | hx
    · exact h.pairedBeforeR x hx y (by rw [hq]; exact List.mem_cons_of_mem _ hy)
    · subst hx
      exact hfrest y hy

lemma inv_pairSender [Inhabited T] (c : Config T) (f : Nat) (rest : List Nat)
    (h : Inv c) (hq : c.senders = f :: rest) :
    Inv (pairSender c f rest).2 := by
  have hfS : f ∈ c.senders := by
    rw [hq]
    exact List.mem_cons_self f rest
  have hrole : (c.slots f).role = .sender := (h.queueS f hfS).1
  have hready : (c.slots f).ready = false := (h.queueS f hfS).2
  have hstores : (c.slots f).readyStores = [] := by
    by_contra hne
    have h2 := (h.storesMono f).2 hne
    simp only [Config.getSlot] at h2
    rw [h2] at hready
    cases hready
  have hcell : ((c.slots f).cell).isSome = true := h.senderCell f hrole hready
  obtain ⟨a, ha⟩ := Option.isSome_iff_exists.mp hcell
  have hfrest : ∀ y ∈ rest, f < y := by
    have hs := h.sortedS
    rw [hq] at hs
    exact (List.pairwise_cons.mp hs).1
  have hfn : f < c.nSlots := h.boundS f hfS
  have hrempty : c.receivers = [] := by
    rcases h.oneSide with hs | hr
    · rw [hq] at hs
      cases hs
    · exact hr
  refine { h with
    lenS := ?_
    oneSide := ?_
    sortedS := ?_
    boundS := ?_
    queueS := ?_
    queueR := ?_
    senderCell := ?_
    slotsFresh := ?_
    storesMono := ?_
    storesNoCloser := ?_
    storesSender := ?_
    storesReceiver := ?_
    opsInv := ?_
    sortedPS := ?_
    pairedBoundS := ?_
    pairedBeforeS := ?_
    panicFree := ?_ }
  · rfl
  · right
    simpa [pairSender] using hrempty
  · simp only [pairSender]
    exact (List.pairwise_cons.mp (hq ▸ h.sortedS)).2
  · intro sid hsid
    simp only [pairSender, nSlots_setSlot] at hsid ⊢
    exact h.boundS sid (by rw [hq]; exact List.mem_cons_of_mem _ hsid)
  · intro sid hsid
    simp only [pairSender] at hsid
    simp only [pairSender, Config.getSlot, slots_setSlot]
    rw [if_neg (hfrest sid hsid).ne']
    exact h.queueS sid (by rw [hq]; exact List.mem_cons_of_mem _ hsid)
  · intro sid hsid
    simp only [pairSender, receivers_setSlot] at hsid
    rw [hrempty] at hsid
    cases hsid
  · intro sid
    simp only [pairSender, Config.getSlot, slots_setSlot]
    by_cases hsf : sid = f
    · rw [if_pos hsf]
      simp [Slot.take, Slot.signal]
    · rw [if_neg hsf]
      exact h.senderCell sid
  · intro sid hsid
    simp only [pairSender, nSlots_setSlot] at hsid
    simp only [pairSender, Config.getSlot, slots_setSlot]
    rw [if_neg (by omega)]
    exact h.slotsFresh sid hsid
  · intro sid
    simp only [pairSender, Config.getSlot, slots_setSlot]
    by_cases hsf : sid = f
    · rw [if_pos hsf]
      simp [Slot.take, Slot.signal]
    · rw [if_neg hsf]
      exact h.storesMono sid
  · intro sid
    simp only [pairSender, Config.getSlot, slots_setSlot]
    by_cases hsf : sid = f
    · rw [if_pos hsf]
      simp [Slot.take, Slot.signal, hstores]
    · rw [if_neg hsf]
      exact h.storesNoCloser sid
  · intro sid
    simp only [pairSender, Config.getSlot, slots_setSlot]
    by_cases hsf : sid = f
    · rw [if_pos hsf]
      simp [Slot.take, Slot.signal, hstores]
    · rw [if_neg hsf]
      exact h.storesSender sid
  · intro sid
    simp only [pairSender, Config.getSlot, slots_setSlot]
    by_cases hsf : sid = f
    · rw [if_pos hsf]
      simp [Slot.take, Slot.signal, hrole]
    · rw [if_neg hsf]
      exact h.storesReceiver sid
  · intro j oj hj
    simp only [pairSender, ops_setSlot] at hj
    have old := h.opsInv j oj hj
    cases oj with
    | sendWait sid dl' v0 =>
      obtain ⟨hb, hr, hc⟩ := old
      by_cases hsf : sid = f
      · subst hsf
        refine ⟨hb, ?_, ?_⟩ <;>
          simp only [pairSender, Config.getSlot, slots_setSlot, if_pos rfl]
        · simpa [Slot.take, Slot.signal] using hrole
        · simp [Slot.take, Slot.signal]
      · refine ⟨hb, ?_, ?_⟩ <;>
          simp only [pairSender, Config.getSlot, slots_setSlot, if_neg hsf]
        · exact hr
        · exact hc
    | sendCancel sid dl' v0 =>
      obtain ⟨hb, hr, hc, hcl⟩ := old
      by_cases hsf : sid = f
      · subst hsf
        refine ⟨hb, ?_, ?_, ?_⟩ <;>
          simp only [pairSender, Config.getSlot, slots_setSlot, if_pos rfl]
        · simpa [Slot.take, Slot.signal] using hrole
        · simp [Slot.take, Slot.signal]
        · exact hcl
      · refine ⟨hb, ?_, ?_, ?_⟩ <;>
          simp only [pairSender, Config.getSlot, slots_setSlot, if_neg hsf]
        · exact hr
        · exact hc
        · exact hcl
    | recvWait sid dl' =>
      obtain ⟨hb, hr, hc⟩ := old
      have hne : sid ≠ f := by
        intro he
        rw [he] at hr
        simp only [Config.getSlot] at hr
        rw [hrole] at hr
        cases hr
      refine ⟨hb, ?_, ?_⟩ <;>
        simp only [pairSender, Config.getSlot, slots_setSlot, if_neg hne]
      · exact hr
      · exact hc
    | recvCancel sid dl' =>
      obtain ⟨hb, hr, hc, hcl⟩ := old
      have hne : sid ≠ f := by
        intro he
        rw [he] at hr
        simp only [Config.getSlot] at hr
        rw [hrole] at hr
        cases hr
      refine ⟨hb, ?_, ?_, ?_⟩ <;>
        simp only [pairSender, Config.getSlot, slots_setSlot, if_neg hne]
      · exact hr
      · exact hc
      · exact hcl
    | sendStart v' dl' => trivial
    | sendLock v' dl' => trivial
    | recvStart dl' => trivial
    | recvLock dl' => trivial
    | sendDone dl' v0 r => exact old
    | recvDone dl' r => exact old
  · simp only [pairSender]
    refine List.pairwise_append.mpr ⟨h.sortedPS, by simp, ?_⟩
    intro x hx y hy
    simp only [List.mem_singleton] at hy
    rw [hy]
    exact h.pairedBeforeS x hx f hfS
  · intro x hx
    simp only [pairSender, List.mem_append, List.mem_singleton] at hx
    rcases hx with hx | hx
    · exact h.pairedBoundS x hx
    · rw [hx]
      simpa [pairSender] using hfn
  · intro x hx y hy
    simp only [pairSender] at hx hy
    simp only [List.mem_append, List.mem_singleton] at hx
    rcases hx with hx | hx
    · exact h.pairedBeforeS x hx y (by rw [hq]; exact List.mem_cons_of_mem _ hy)
    · rw [hx]
      exact hfrest y hy
  · simp only [pairSender, Config.getSlot, Slot.take]
    rw [ha]
    simp [unwrapD, h.panicFree]

lemma OpInv_mono {c c' : Config T} (o : OpState T)
    (hn : c.nSlots ≤ c'.nSlots)
    (hs : ∀ sid, sid < c.nSlots → c'.slots sid = c.slots sid)
    (hc : c.closed = true → c'.closed = true) (h : OpInv c o) : OpInv c' o := by
  cases o with
  | sendWait sid dl v0 =>
    obtain ⟨hb, hr, hcell⟩ := h
    refine ⟨lt_of_lt_of_le hb hn, ?_, ?_⟩ <;> simp only [Config.getSlot, hs sid hb]
    · exact hr
    · exact hcell
  | sendCancel sid dl v0 =>
    obtain ⟨hb, hr, hcell, hcl⟩ := h
    refine ⟨lt_of_lt_of_le hb hn, ?_, ?_, fun hdl => hc (hcl hdl)⟩ <;>
      simp only [Config.getSlot, hs sid hb]
    · exact hr
    · exact hcell
  | recvWait sid dl =>
    obtain ⟨hb, hr, hst⟩ := h
    refine ⟨lt_of_lt_of_le hb hn, ?_, ?_⟩ <;> simp only [Config.getSlot, hs sid hb]
    · exact hr
    · exact hst
  | recvCancel sid dl =>
    obtain ⟨hb, hr, hst, hcl⟩ := h
    refine ⟨lt_of_lt_of_le hb hn, ?_, ?_, fun hdl => hc (hcl hdl)⟩ <;>
      simp only [Config.getSlot, hs sid hb]
    · exact hr
    · exact hst
  | sendStart v dl => trivial
  | sendLock v dl => trivial
  | recvStart dl => trivial
  | recvLock dl => trivial
  | sendDone dl v0 r => exact h
  | recvDone dl r => exact h

lemma ownSid_lt {c : Config T} {o : OpState T} (h : OpInv c o) {s : Nat}
    (hs : o.ownSid = some s) : s < c.nSlots := by
  cases o with
  | sendWait sid dl v0 =>
    cases hs
    exact h.1
  | sendCancel sid dl v0 =>
    cases hs
    exact h.1
  | recvWait sid dl =>
    cases hs
    exact h.1
  | recvCancel sid dl =>
    cases hs
    exact h.1
  | sendStart v dl => cases hs
  | sendLock v dl => cases hs
  | recvStart dl => cases hs
  | recvLock dl => cases hs
  | sendDone dl v0 r => cases hs
  | recvDone dl r => cases hs

lemma inv_try_send (c : Config T) (v : T) (h : Inv c) : Inv (try_send c v).2 := by
  by_cases hc : c.closed = true
  · simp [try_send, hc]
    exact h
  · rcases hq : c.receivers with _ | ⟨f, rest⟩
    · simp only [try_send, hc, hq, if_false, Bool.false_eq_true]
      split <;> exact h
    · by_cases hlen : c.receivers_len = 0
      · simp [try_send, hc, hlen]
        exact h
      · simp only [try_send, hc, hq, if_false, Bool.false_eq_true, beq_iff_eq, hlen]
        simpa using inv_pairReceiver c f rest v h hq

lemma inv_try_recv [Inhabited T] (c : Config T) (h : Inv c) : Inv (try_recv c).2 := by
  by_cases hc : c.closed = true
  · simp [try_recv, hc]
    exact h
  · rcases hq : c.senders with _ | ⟨f, rest⟩
    · simp only [try_recv, hc, hq, if_false, Bool.false_eq_true]
      split <;> exact h
    · by_cases hlen : c.senders_len = 0
      · simp [try_recv, hc, hlen]
        exact h
      · simp only [try_recv, hc, hq, if_false, Bool.false_eq_true, beq_iff_eq, hlen]
        simpa using inv_pairSender c f rest h hq

lemma inv_send_until_entry (c : Config T) (i : Nat) (v : T) (dl : Bool) (h : Inv c)
    (hi : c.ops i = some (.sendStart v dl)) : Inv (send_until_entry c i v dl) := by
  have hlt := lt_nOps_of_ops c h hi
  unfold send_until_entry
  split
  · refine inv_setOp c i _ h hlt ⟨?_, ?_⟩ ?_
    · intro v' hv'
      simp at hv'
    · intro v' hv'
      simp only [Except.error.injEq, SendTimeoutError.Disconnected.injEq] at hv'
      exact hv'.symm
    · intro s hs
      cases hs
  · refine inv_setOp c i _ h hlt trivial ?_
    intro s hs
    cases hs

lemma inv_recv_until_entry (c : Config T) (i : Nat) (dl : Bool) (h : Inv c)
    (hi : c.ops i = some (.recvStart dl)) : Inv (recv_until_entry c i dl) := by
  have hlt := lt_nOps_of_ops c h hi
  unfold recv_until_entry
  split
  · refine inv_setOp c i _ h hlt ?_ ?_
    · intro hv'
      simp at hv'
    · intro s hs
      cases hs
  · refine inv_setOp c i _ h hlt trivial ?_
    intro s hs
    cases hs

lemma inv_send_ready (c : Config T) (i sid : Nat) (dl : Bool) (v0 : T) (h : Inv c)
    (hi : c.ops i = some (.sendWait sid dl v0)) :
    Inv (c.setOp i (.sendDone dl v0 (.ok ()))) := by
  refine inv_setOp c i _ h (lt_nOps_of_ops c h hi) ⟨?_, ?_⟩ ?_
  · intro v' hv'
    simp at hv'
  · intro v' hv'
    simp at hv'
  · intro s hs
    cases hs

lemma inv_send_break (c : Config T) (i sid : Nat) (dl : Bool) (v0 : T) (h : Inv c)
    (hi : c.ops i = some (.sendWait sid dl v0)) (hb : c.closed = true ∨ dl = true) :
    Inv (c.setOp i (.sendCancel sid dl v0)) := by
  obtain ⟨hbnd, hrole, hcell⟩ := h.opsInv i _ hi
  refine inv_setOp c i _ h (lt_nOps_of_ops c h hi) ⟨hbnd, hrole, hcell, ?_⟩ ?_
  · intro hdl
    rcases hb with hcl | hdl2
    · exact hcl
    · rw [hdl] at hdl2
      cases hdl2
  · intro s hs j oj hj hsj
    cases hs
    exact h.ownUnique j i oj _ sid hj hi hsj rfl

lemma inv_recv_break (c : Config T) (i sid : Nat) (dl : Bool) (h : Inv c)
    (hi : c.ops i = some (.recvWait sid dl)) (hb : c.closed = true ∨ dl = true) :
    Inv (c.setOp i (.recvCancel sid dl)) := by
  obtain ⟨hbnd, hrole, hst⟩ := h.opsInv i _ hi
  refine inv_setOp c i _ h (lt_nOps_of_ops c h hi) ⟨hbnd, hrole, hst, ?_⟩ ?_
  · intro hdl
    rcases hb with hcl | hdl2
    · exact hcl
    · rw [hdl] at hdl2
      cases hdl2
  · intro s hs j oj hj hsj
    cases hs
    exact h.ownUnique j i oj _ sid hj hi hsj rfl

lemma inv_send_until_pair (c : Config T) (i : Nat) (v : T) (dl : Bool) (h : Inv c)
    (hi : c.ops i = some (.sendLock v dl)) : Inv (send_until_pair c i v dl) := by
  have hlt := lt_nOps_of_ops c h hi
  by_cases hc : c.closed = true
  · simp only [send_until_pair, if_pos hc]
    refine inv_setOp c i _ h hlt ⟨?_, ?_⟩ ?_
    · intro v' hv'
      simp at hv'
    · intro v' hv'
      simp only [Except.error.injEq, SendTimeoutError.Disconnected.injEq] at hv'
      exact hv'.symm
    · intro s hs
      cases hs
  · rcases hq : c.receivers with _ | ⟨f, rest⟩
    · simp only [send_until_pair, if_neg hc, hq]
      refine { h with
        lenS := ?_
        oneSide := ?_
        sortedS := ?_
        boundS := ?_
        boundR := ?_
        queueS := ?_
        queueR := ?_
        senderCell := ?_
        slotsFresh := ?_
        storesMono := ?_
        storesNoCloser := ?_
        storesSender := ?_
        storesReceiver := ?_
        opsFresh := ?_
        opsInv := ?_
        ownUnique := ?_
        pairedBoundS := ?_
        pairedBoundR := ?_
        pairedBeforeS := ?_ }
      · rfl
      · right
        simpa using hq
      · show (c.senders ++ [c.nSlots]).Pairwise (· < ·)
        refine List.pairwise_append.mpr ⟨h.sortedS, by simp, ?_⟩
        intro x hx y hy
        simp only [List.mem_singleton] at hy
        rw [hy]
        exact h.boundS x hx
      · intro sid hsid
        simp only [List.mem_append, List.mem_singleton] at hsid
        show sid < c.nSlots + 1
        rcases hsid with hs | hs
        · have := h.boundS sid hs
          omega
        · omega
      · intro sid hsid
        simp only at hsid
        have := h.boundR sid hsid
        show sid < c.nSlots + 1
        omega
      · intro sid hsid
        simp only [List.mem_append, List.mem_singleton] at hsid
        simp only [Config.getSlot, slots_setOp, slots_setSlot]
        rcases hsid with hs | hs
        · rw [if_neg (h.boundS sid hs).ne]
          exact h.queueS sid hs
        · rw [if_pos hs]
          exact ⟨rfl, rfl⟩
      · intro sid hsid
        simp only at hsid
        simp only [Config.getSlot, slots_setOp, slots_setSlot]
        rw [if_neg (h.boundR sid hsid).ne]
        exact h.queueR sid hsid
      · intro sid
        simp only [Config.getSlot, slots_setOp, slots_setSlot]
        by_cases hsf : sid = c.nSlots
        · rw [if_pos hsf]
          simp
        · rw [if_neg hsf]
          exact h.senderCell sid
      · intro sid hsid
        simp only at hsid
        simp only [Config.getSlot, slots_setOp, slots_setSlot]
        rw [if_neg (by omega)]
        exact h.slotsFresh sid (by omega)
      · intro sid
        simp only [Config.getSlot, slots_setOp, slots_setSlot]
        by_cases hsf : sid = c.nSlots
        · rw [if_pos hsf]
          simp
        · rw [if_neg hsf]
          exact h.storesMono sid
      · intro sid
        simp only [Config.getSlot, slots_setOp, slots_setSlot]
        by_cases hsf : sid = c.nSlots
        · rw [if_pos hsf]
          simp
        · rw [if_neg hsf]
          exact h.storesNoCloser sid
      · intro sid
        simp only [Config.getSlot, slots_setOp, slots_setSlot]
        by_cases hsf : sid = c.nSlots
        · rw [if_pos hsf]
          simp
        · rw [if_neg hsf]
          exact h.storesSender sid
      · intro sid
        simp only [Config.getSlot, slots_setOp, slots_setSlot]
        by_cases hsf : sid = c.nSlots
        · rw [if_pos hsf]
          simp
        · rw [if_neg hsf]
          exact h.storesReceiver sid
      · intro j hj
        simp only [nOps_setOp, nOps_setSlot] at hj
        simp only [ops_setOp, ops_setSlot]
        rw [if_neg (by omega)]
        exact h.opsFresh j hj
      · intro j oj hj
        simp only [ops_setOp, ops_setSlot] at hj
        split at hj
        · cases hj
          refine ⟨by show c.nSlots < c.nSlots + 1; omega, ?_, ?_⟩ <;>
            simp only [Config.getSlot, slots_setOp, slots_setSlot, if_pos rfl]
          · rfl
          · intro
            rfl
        · refine OpInv_mono oj ?_ ?_ ?_ (h.opsInv j oj hj)
          · show c.nSlots ≤ c.nSlots + 1
            omega
          · intro sid hsid
            simp only [slots_setOp, slots_setSlot]
            rw [if_neg (by omega)]
          · intro hcl
            exact hcl
      · intro a b oa ob s ha hb2 hsa hsb
        simp only [ops_setOp, ops_setSlot] at ha hb2
        by_cases hai : a = i <;> by_cases hbi : b = i
        · omega
        · rw [if_pos hai] at ha
          cases ha
          cases hsa
          rw [if_neg hbi] at hb2
          have := ownSid_lt (h.opsInv b ob hb2) hsb
          omega
        · rw [if_pos hbi] at hb2
          cases hb2
          cases hsb
          rw [if_neg hai] at ha
          have := ownSid_lt (h.opsInv a oa ha) hsa
          omega
        · rw [if_neg hai] at ha
          rw [if_neg hbi] at hb2
          exact h.ownUnique a b oa ob s ha hb2 hsa hsb
      · intro x hx
        simp only at hx
        have := h.pairedBoundS x hx
        show x < c.nSlots + 1
        omega
      · intro x hx
        simp only at hx
        have := h.pairedBoundR x hx
        show x < c.nSlots + 1
        omega
      · intro x hx y hy
        simp only [List.mem_append, List.mem_singleton] at hy
        simp only at hx
        rcases hy with hy | hy
        · exact h.pairedBeforeS x hx y hy
        · rw [hy]
          exact h.pairedBoundS x hx
    · simp only [send_until_pair, if_neg hc, hq]
      refine inv_setOp (pairReceiver c f rest v) i _
        (inv_pairReceiver c f rest v h hq) hlt ⟨?_, ?_⟩ ?_
      · intro v' hv'
        simp at hv'
      · intro v' hv'
        simp at hv'
      · intro s hs
        cases hs

lemma inv_recv_until_pair [Inhabited T] (c : Config T) (i : Nat) (dl : Bool) (h : Inv c)
    (hi : c.ops i = some (.recvLock dl)) : Inv (recv_until_pair c i dl) := by
  have hlt := lt_nOps_of_ops c h hi
  by_cases hc : c.closed = true
  · simp only [recv_until_pair, if_pos hc]
    refine inv_setOp c i _ h hlt ?_ ?_
    · intro hv'
      simp at hv'
    · intro s hs
      cases hs
  · rcases hq : c.senders with _ | ⟨f, rest⟩
    · simp only [recv_until_pair, if_neg hc, hq]
      refine { h with
        lenR := ?_
        oneSide := ?_
        sortedR := ?_
        boundS := ?_
        boundR := ?_
        queueS := ?_
        queueR := ?_
        senderCell := ?_
        slotsFresh := ?_
        storesMono := ?_
        storesNoCloser := ?_
        storesSender := ?_
        storesReceiver := ?_
        opsFresh := ?_
        opsInv := ?_
        ownUnique := ?_
        pairedBoundS := ?_
        pairedBoundR := ?_
        pairedBeforeR := ?_ }
      · rfl
      · left
        simpa using hq
      · show (c.receivers ++ [c.nSlots]).Pairwise (· < ·)
        refine List.pairwise_append.mpr ⟨h.sortedR, by simp, ?_⟩
        intro x hx y hy
        simp only [List.mem_singleton] at hy
        rw [hy]
        exact h.boundR x hx
      · intro sid hsid
        simp only at hsid
        have := h.boundS sid hsid
        show sid < c.nSlots + 1
        omega
      · intro sid hsid
        simp only [List.mem_append, List.mem_singleton] at hsid
        show sid < c.nSlots + 1
        rcases hsid with hs | hs
        · have := h.boundR sid hs
          omega
        · omega
      · intro sid hsid
        simp only at hsid
        simp only [Config.getSlot, slots_setOp, slots_setSlot]
        rw [if_neg (h.boundS sid hsid).ne]
        exact h.queueS sid hsid
      · intro sid hsid
        simp only [List.mem_append, List.mem_singleton] at hsid
        simp only [Config.getSlot, slots_setOp, slots_setSlot]
        rcases hsid with hs | hs
        · rw [if_neg (h.boundR sid hs).ne]
          exact h.queueR sid hs
        · rw [if_pos hs]
          exact ⟨rfl, rfl, rfl⟩
      · intro sid
        simp only [Config.getSlot, slots_setOp, slots_setSlot]
        by_cases hsf : sid = c.nSlots
        · rw [if_pos hsf]
          intro hr
          cases hr
        · rw [if_neg hsf]
          exact h.senderCell sid
      · intro sid hsid
        simp only at hsid
        simp only [Config.getSlot, slots_setOp, slots_setSlot]
        rw [if_neg (by omega)]
        exact h.slotsFresh sid (by omega)
      · intro sid
        simp only [Config.getSlot, slots_setOp, slots_setSlot]
        by_cases hsf : sid = c.nSlots
        · rw [if_pos hsf]
          simp
        · rw [if_neg hsf]
          exact h.storesMono sid
      · intro sid
        simp only [Config.getSlot, slots_setOp, slots_setSlot]
        by_cases hsf : sid = c.nSlots
        · rw [if_pos hsf]
          simp
        · rw [if_neg hsf]
          exact h.storesNoCloser sid
      · intro sid
        simp only [Config.getSlot, slots_setOp, slots_setSlot]
        by_cases hsf : sid = c.nSlots
        · rw [if_pos hsf]
          simp
        · rw [if_neg hsf]
          exact h.storesSender sid
      · intro sid
        simp only [Config.getSlot, slots_setOp, slots_setSlot]
        by_cases hsf : sid = c.nSlots
        · rw [if_pos hsf]
          simp
        · rw [if_neg hsf]
          exact h.storesReceiver sid
      · intro j hj
        simp only [nOps_setOp, nOps_setSlot] at hj
        simp only [ops_setOp, ops_setSlot]
        rw [if_neg (by omega)]
        exact h.opsFresh j hj
      · intro j oj hj
        simp only [ops_setOp, ops_setSlot] at hj
        split at hj
        · cases hj
          refine ⟨by show c.nSlots < c.nSlots + 1; omega, ?_, ?_⟩ <;>
            simp only [Config.getSlot, slots_setOp, slots_setSlot, if_pos rfl]
          · rfl
          · left
            rfl
        · refine OpInv_mono oj ?_ ?_ ?_ (h.opsInv j oj hj)
          · show c.nSlots ≤ c.nSlots + 1
            omega
          · intro sid hsid
            simp only [slots_setOp, slots_setSlot]
            rw [if_neg (by omega)]
          · intro hcl
            exact hcl
      · intro a b oa ob s ha hb2 hsa hsb
        simp only [ops_setOp, ops_setSlot] at ha hb2
        by_cases hai : a = i <;> by_cases hbi : b = i
        · omega
        · rw [if_pos hai] at ha
          cases ha
          cases hsa
          rw [if_neg hbi] at hb2
          have := ownSid_lt (h.opsInv b ob hb2) hsb
          omega
        · rw [if_pos hbi] at hb2
          cases hb2
          cases hsb
          rw [if_neg hai] at ha
          have := ownSid_lt (h.opsInv a oa ha) hsa
          omega
        · rw [if_neg hai] at ha
          rw [if_neg hbi] at hb2
          exact h.ownUnique a b oa ob s ha hb2 hsa hsb
      · intro x hx
        simp only at hx
        have := h.pairedBoundS x hx
        show x < c.nSlots + 1
        omega
      · intro x hx
        simp only at hx
        have := h.pairedBoundR x hx
        show x < c.nSlots + 1
        omega
      · intro x hx y hy
        simp only [List.mem_append, List.mem_singleton] at hy
        simp only at hx
        rcases hy with hy | hy
        · exact h.pairedBeforeR x hx y hy
        · rw [hy]
          exact h.pairedBoundR x hx
    · simp only [recv_until_pair, if_neg hc, hq]
      refine inv_setOp (pairSender c f rest).2 i _
        (inv_pairSender c f rest h hq) hlt ?_ ?_
      · intro hv'
        simp at hv'
      · intro s hs
        cases hs

lemma inv_send_until_cancel [Inhabited T] (c : Config T) (i sid : Nat) (dl : Bool)
    (v0 : T) (h : Inv c) (hi : c.ops i = some (.sendCancel sid dl v0)) :
    Inv (send_until_cancel c i sid dl v0) := by
  have hlt := lt_nOps_of_ops c h hi
  obtain ⟨hbnd, hrole, hcell, hcldl⟩ := h.opsInv i _ hi
  by_cases hready : (c.getSlot sid).ready = true
  · simp only [send_until_cancel, if_pos hready]
    refine inv_setOp c i _ h hlt ⟨?_, ?_⟩ ?_
    · intro v' hv'
      simp at hv'
    · intro v' hv'
      simp at hv'
    · intro s hs
      cases hs
  · have hready' : (c.slots sid).ready = false := by
      simpa using hready
    have hcellv : (c.slots sid).cell = some v0 := hcell hready'
    have hrole' : (c.slots sid).role = .sender := hrole
    have hstores : (c.slots sid).readyStores = [] := by
      by_contra hne
      have h2 := (h.storesMono sid).2 hne
      simp only [Config.getSlot] at h2
      rw [h2] at hready'
      cases hready'
    have hnotR : sid ∉ c.receivers := by
      intro hmem
      have h2 := (h.queueR sid hmem).1
      simp only [Config.getSlot] at h2
      rw [hrole'] at h2
      cases h2
    simp only [send_until_cancel]
    rw [if_neg hready]
    refine { h with
      lenS := ?_
      oneSide := ?_
      sortedS := ?_
      boundS := ?_
      queueS := ?_
      queueR := ?_
      senderCell := ?_
      slotsFresh := ?_
      storesMono := ?_
      storesNoCloser := ?_
      storesSender := ?_
      storesReceiver := ?_
      opsFresh := ?_
      opsInv := ?_
      ownUnique := ?_
      pairedBeforeS := ?_
      panicFree := ?_ }
    · rfl
    · rcases h.oneSide with hs | hr2
      · left
        simp only [hs, List.filter_nil]
      · right
        simpa using hr2
    · exact List.Pairwise.sublist (List.filter_sublist c.senders) h.sortedS
    · intro x hx
      simp only [nSlots_setOp, nSlots_setSlot] at hx ⊢
      exact h.boundS x (List.mem_of_mem_filter hx)
    · intro x hx
      simp only [] at hx
      have hxm := List.mem_of_mem_filter hx
      have hxne : x ≠ sid := by
        have := List.of_mem_filter hx
        simpa using this
      simp only [Config.getSlot, slots_setOp, slots_setSlot]
      rw [if_neg hxne]
      exact h.queueS x hxm
    · intro y hy
      simp only [] at hy
      have hyne : y ≠ sid := by
        intro he
        rw [he] at hy
        exact hnotR hy
      simp only [Config.getSlot, slots_setOp, slots_setSlot]
      rw [if_neg hyne]
      exact h.queueR y hy
    · intro x
      simp only [Config.getSlot, slots_setOp, slots_setSlot]
      by_cases hx : x = sid
      · rw [if_pos hx]
        simp [Slot.take, Slot.signal]
      · rw [if_neg hx]
        exact h.senderCell x
    · intro x hx
      simp only [nSlots_setOp, nSlots_setSlot] at hx
      simp only [Config.getSlot, slots_setOp, slots_setSlot]
      rw [if_neg (by omega)]
      exact h.slotsFresh x hx
    · intro x
      simp only [Config.getSlot, slots_setOp, slots_setSlot]
      by_cases hx : x = sid
      · rw [if_pos hx]
        simp [Slot.take, Slot.signal]
      · rw [if_neg hx]
        exact h.storesMono x
    · intro x
      simp only [Config.getSlot, slots_setOp, slots_setSlot]
      by_cases hx : x = sid
      · rw [if_pos hx]
        simp [Slot.take, Slot.signal, hstores]
      · rw [if_neg hx]
        exact h.storesNoCloser x
    · intro x
      simp only [Config.getSlot, slots_setOp, slots_setSlot]
      by_cases hx : x = sid
      · rw [if_pos hx]
        simp [Slot.take, Slot.signal, hstores]
      · rw [if_neg hx]
        exact h.storesSender x
    · intro x
      simp only [Config.getSlot, slots_setOp, slots_setSlot]
      by_cases hx : x = sid
      · rw [if_pos hx]
        simp [Slot.take, Slot.signal, hrole']
      · rw [if_neg hx]
        exact h.storesReceiver x
    · intro j hj
      simp only [nOps_setOp, nOps_setSlot] at hj
      simp only [ops_setOp, ops_setSlot]
      rw [if_neg (by omega)]
      exact h.opsFresh j hj
    · intro j oj hj
      simp only [ops_setOp, ops_setSlot] at hj
      split at hj
      · cases hj
        refine ⟨?_, ?_⟩
        · intro v' hv'
          simp only [Slot.take, Config.getSlot] at hv'
          rw [hcellv] at hv'
          simp only [unwrapD] at hv'
          by_cases hcl : c.closed = true
          · rw [if_pos hcl] at hv'
            simp at hv'
          · rw [if_neg hcl] at hv'
            simp only [Except.error.injEq, SendTimeoutError.Timeout.injEq] at hv'
            refine ⟨hv'.symm, ?_⟩
            rcases Bool.eq_false_or_eq_true dl with hdl | hdl
            · exact hdl
            · exact absurd (hcldl hdl) hcl
        · intro v' hv'
          simp only [Slot.take, Config.getSlot] at hv'
          rw [hcellv] at hv'
          simp only [unwrapD] at hv'
          by_cases hcl : c.closed = true
          · rw [if_pos hcl] at hv'
            simp only [Except.error.injEq, SendTimeoutError.Disconnected.injEq] at hv'
            exact hv'.symm
          · rw [if_neg hcl] at hv'
            simp at hv'
      · have old := h.opsInv j oj hj
        rename_i hji
        have hne : ∀ s, oj.ownSid = some s → s ≠ sid := by
          intro s hs he
          rw [he] at hs
          exact hji (h.ownUnique j i oj _ sid hj hi hs rfl)
        cases oj with
        | sendWait sid' dl' w =>
          obtain ⟨hb2, hr2, hc2⟩ := old
          have hne' := hne sid' rfl
          refine ⟨hb2, ?_, ?_⟩ <;>
            simp only [Config.getSlot, slots_setOp, slots_setSlot, if_neg hne']
          · exact hr2
          · exact hc2
        | sendCancel sid' dl' w =>
          obtain ⟨hb2, hr2, hc2, hcl2⟩ := old
          have hne' := hne sid' rfl
          refine ⟨hb2, ?_, ?_, ?_⟩ <;>
            simp only [Config.getSlot, slots_setOp, slots_setSlot, if_neg hne']
          · exact hr2
          · exact hc2
          · exact hcl2
        | recvWait sid' dl' =>
          obtain ⟨hb2, hr2, hc2⟩ := old
          have hne' := hne sid' rfl
          refine ⟨hb2, ?_, ?_⟩ <;>
            simp only [Config.getSlot, slots_setOp, slots_setSlot, if_neg hne']
          · exact hr2
          · exact hc2
        | recvCancel sid' dl' =>
          obtain ⟨hb2, hr2, hc2, hcl2⟩ := old
          have hne' := hne sid' rfl
          refine ⟨hb2, ?_, ?_, ?_⟩ <;>
            simp only [Config.getSlot, slots_setOp, slots_setSlot, if_neg hne']
          · exact hr2
          · exact hc2
          · exact hcl2
        | sendStart w dl' => trivial
        | sendLock w dl' => trivial
        | recvStart dl' => trivial
        | recvLock dl' => trivial
        | sendDone dl' w r => exact old
        | recvDone dl' r => exact old
    · intro a b oa ob s ha hb2 hsa hsb
      simp only [ops_setOp, ops_setSlot] at ha hb2
      by_cases hai : a = i <;> by_cases hbi : b = i
      · omega
      · rw [if_pos hai] at ha
        cases ha
        cases hsa
      · rw [if_pos hbi] at hb2
        cases hb2
        cases hsb
      · rw [if_neg hai] at ha
        rw [if_neg hbi] at hb2
        exact h.ownUnique a b oa ob s ha hb2 hsa hsb
    · intro x hx y hy
      simp only [] at hx hy
      exact h.pairedBeforeS x hx y (List.mem_of_mem_filter hy)
    · simp only [Slot.take, Config.getSlot]
      rw [hcellv]
      simp [unwrapD, h.panicFree]

lemma inv_recv_until_ready [Inhabited T] (c : Config T) (i sid : Nat) (dl : Bool)
    (h : Inv c)
    (hop : c.ops i = some (.recvWait sid dl) ∨ c.ops i = some (.recvCancel sid dl))
    (hready : (c.getSlot sid).ready = true) :
    Inv (recv_until_ready c i sid dl) := by
  have hi : ∃ o, c.ops i = some o ∧ o.ownSid = some sid ∧ OpInv c o := by
    rcases hop with hi | hi
    · exact ⟨_, hi, rfl, h.opsInv i _ hi⟩
    · exact ⟨_, hi, rfl, h.opsInv i _ hi⟩
  obtain ⟨o0, hio, hiown, hinv⟩ := hi
  have hlt := lt_nOps_of_ops c h hio
  have hbnd : sid < c.nSlots := ownSid_lt hinv hiown
  have hrole : (c.slots sid).role = .receiver := by
    rcases hop with hi | hi <;> exact (h.opsInv i _ hi).2.1
  have hst : (c.slots sid).readyStores = [.peer] ∧ ((c.slots sid).cell).isSome = true := by
    have hstcases :
        (c.getSlot sid).readyStores = [] ∨
        ((c.getSlot sid).readyStores = [.peer] ∧ ((c.getSlot sid).cell).isSome = true) := by
      rcases hop with hi | hi
      · exact (h.opsInv i _ hi).2.2
      · exact (h.opsInv i _ hi).2.2.1
    rcases hstcases with hempty | hok
    · have := (h.storesMono sid).1 hready
      simp only [Config.getSlot] at this hempty
      rw [hempty] at this
      cases this rfl
    · exact hok
  obtain ⟨a, ha⟩ := Option.isSome_iff_exists.mp hst.2
  have hnotR : sid ∉ c.receivers := by
    intro hmem
    have h2 := (h.queueR sid hmem).2.1
    simp only [Config.getSlot] at h2 hready
    rw [h2] at hready
    cases hready
  have hnotS : sid ∉ c.senders := by
    intro hmem
    have h2 := (h.queueS sid hmem).1
    simp only [Config.getSlot] at h2
    rw [hrole] at h2
    cases h2
  refine { h with
    queueS := ?_
    queueR := ?_
    senderCell := ?_
    slotsFresh := ?_
    storesMono := ?_
    storesNoCloser := ?_
    storesSender := ?_
    storesReceiver := ?_
    opsFresh := ?_
    opsInv := ?_
    ownUnique := ?_
    panicFree := ?_ }
  · intro x hx
    simp only [recv_until_ready] at hx
    have hxne : x ≠ sid := by
      intro he
      rw [he] at hx
      exact hnotS hx
    simp only [recv_until_ready, Config.getSlot, slots_setOp, slots_setSlot]
    rw [if_neg hxne]
    exact h.queueS x hx
  · intro y hy
    simp only [recv_until_ready] at hy
    have hyne : y ≠ sid := by
      intro he
      rw [he] at hy
      exact hnotR hy
    simp only [recv_until_ready, Config.getSlot, slots_setOp, slots_setSlot]
    rw [if_neg hyne]
    exact h.queueR y hy
  · intro x
    simp only [recv_until_ready, Config.getSlot, slots_setOp, slots_setSlot]
    by_cases hx : x = sid
    · rw [if_pos hx]
      simp [Slot.take, Slot.signal]
    · rw [if_neg hx]
      exact h.senderCell x
  · intro x hx
    simp only [recv_until_ready, nSlots_setOp, nSlots_setSlot] at hx
    simp only [recv_until_ready, Config.getSlot, slots_setOp, slots_setSlot]
    rw [if_neg (by omega)]
    exact h.slotsFresh x hx
  · intro x
    simp only [recv_until_ready, Config.getSlot, slots_setOp, slots_setSlot]
    by_cases hx : x = sid
    · rw [if_pos hx]
      simp [Slot.take, Slot.signal]
    · rw [if_neg hx]
      exact h.storesMono x
  · intro x
    simp only [recv_until_ready, Config.getSlot, slots_setOp, slots_setSlot]
    by_cases hx : x = sid
    · rw [if_pos hx]
      simp [Slot.take, Slot.signal, hst.1]
    · rw [if_neg hx]
      exact h.storesNoCloser x
  · intro x
    simp only [recv_until_ready, Config.getSlot, slots_setOp, slots_setSlot]
    by_cases hx : x = sid
    · rw [if_pos hx]
      simp [Slot.take, Slot.signal, hrole]
    · rw [if_neg hx]
      exact h.storesSender x
  · intro x
    simp only [recv_until_ready, Config.getSlot, slots_setOp, slots_setSlot]
    by_cases hx : x = sid
    · rw [if_pos hx]
      simp [Slot.take, Slot.signal, hst.1]
    · rw [if_neg hx]
      exact h.storesReceiver x
  · intro j hj
    simp only [recv_until_ready, nOps_setOp, nOps_setSlot] at hj
    simp only [recv_until_ready, ops_setOp, ops_setSlot]
    rw [if_neg (by omega)]
    exact h.opsFresh j hj
  · intro j oj hj
    simp only [recv_until_ready, ops_setOp, ops_setSlot] at hj
    split at hj
    · cases hj
      intro hv'
      simp at hv'
    · have old := h.opsInv j oj hj
      rename_i hji
      have hne : ∀ s, oj.ownSid = some s → s ≠ sid := by
        intro s hs he
        rw [he] at hs
        exact hji (h.ownUnique j i oj o0 sid hj hio hs hiown)
      cases oj with
      | sendWait sid' dl' w =>
        obtain ⟨hb2, hr2, hc2⟩ := old
        have hne' := hne sid' rfl
        refine ⟨hb2, ?_, ?_⟩ <;>
          simp only [recv_until_ready, Config.getSlot, slots_setOp, slots_setSlot,
            if_neg hne']
        · exact hr2
        · exact hc2
      | sendCancel sid' dl' w =>
        obtain ⟨hb2, hr2, hc2, hcl2⟩ := old
        have hne' := hne sid' rfl
        refine ⟨hb2, ?_, ?_, ?_⟩ <;>
          simp only [recv_until_ready, Config.getSlot, slots_setOp, slots_setSlot,
            if_neg hne']
        · exact hr2
        · exact hc2
        · exact hcl2
      | recvWait sid' dl' =>
        obtain ⟨hb2, hr2, hc2⟩ := old
        have hne' := hne sid' rfl
        refine ⟨hb2, ?_, ?_⟩ <;>
          simp only [recv_until_ready, Config.getSlot, slots_setOp, slots_setSlot,
            if_neg hne']
        · exact hr2
        · exact hc2
      | recvCancel sid' dl' =>
        obtain ⟨hb2, hr2, hc2, hcl2⟩ := old
        have hne' := hne sid' rfl
        refine ⟨hb2, ?_, ?_, ?_⟩ <;>
          simp only [recv_until_ready, Config.getSlot, slots_setOp, slots_setSlot,
            if_neg hne']
        · exact hr2
        · exact hc2
        · exact hcl2
      | sendStart w dl' => trivial
      | sendLock w dl' => trivial
      | recvStart dl' => trivial
      | recvLock dl' => trivial
      | sendDone dl' w r => exact old
      | recvDone dl' r => exact old
  · intro a b oa ob s ha hb2 hsa hsb
    simp only [recv_until_ready, ops_setOp, ops_setSlot] at ha hb2
    by_cases hai : a = i <;> by_cases hbi : b = i
    · omega
    · rw [if_pos hai] at ha
      cases ha
      cases hsa
    · rw [if_pos hbi] at hb2
      cases hb2
      cases hsb
    · rw [if_neg hai] at ha
      rw [if_neg hbi] at hb2
      exact h.ownUnique a b oa ob s ha hb2 hsa hsb
  · simp only [recv_until_ready, Slot.take, Config.getSlot]
    rw [ha]
    simp [unwrapD, h.panicFree]

lemma inv_recv_until_cancel [Inhabited T] (c : Config T) (i sid : Nat) (dl : Bool)
    (h : Inv c) (hi : c.ops i = some (.recvCancel sid dl)) :
    Inv (recv_until_cancel c i sid dl) := by
  have hlt := lt_nOps_of_ops c h hi
  obtain ⟨hbnd, hrole, hst, hcldl⟩ := h.opsInv i _ hi
  by_cases hready : (c.getSlot sid).ready = true
  · simp only [recv_until_cancel, if_pos hready]
    exact inv_recv_until_ready c i sid dl h (Or.inr hi) hready
  · simp only [recv_until_cancel]
    rw [if_neg hready]
    refine { h with
      lenR := ?_
      oneSide := ?_
      sortedR := ?_
      boundR := ?_
      queueR := ?_
      opsFresh := ?_
      opsInv := ?_
      ownUnique := ?_
      pairedBeforeR := ?_ }
    · rfl
    · rcases h.oneSide with hs | hr2
      · left
        simpa using hs
      · right
        simp only [hr2, List.filter_nil]
    · exact List.Pairwise.sublist (List.filter_sublist c.receivers) h.sortedR
    · intro x hx
      simp only [nSlots_setOp] at hx ⊢
      exact h.boundR x (List.mem_of_mem_filter hx)
    · intro x hx
      simp only [] at hx
      simp only [Config.getSlot, slots_setOp]
      exact h.queueR x (List.mem_of_mem_filter hx)
    · intro j hj
      simp only [nOps_setOp] at hj
      simp only [ops_setOp]
      rw [if_neg (by omega)]
      exact h.opsFresh j hj
    · intro j oj hj
      simp only [ops_setOp] at hj
      split at hj
      · cases hj
        intro hv'
        by_cases hcl : c.closed = true
        · rw [if_pos hcl] at hv'
          simp at hv'
        · rcases Bool.eq_false_or_eq_true dl with hdl | hdl
          · exact hdl
          · exact absurd (hcldl hdl) hcl
      · refine OpInv_mono oj ?_ ?_ ?_ (h.opsInv j oj hj)
        · exact le_refl _
        · intro s hs
          rfl
        · intro hcl
          exact hcl
    · intro a b oa ob s ha hb2 hsa hsb
      simp only [ops_setOp] at ha hb2
      by_cases hai : a = i <;> by_cases hbi : b = i
      · omega
      · rw [if_pos hai] at ha
        cases ha
        cases hsa
      · rw [if_pos hbi] at hb2
        cases hb2
        cases hsb
      · rw [if_neg hai] at ha
        rw [if_neg hbi] at hb2
        exact h.ownUnique a b oa ob s ha hb2 hsa hsb
    · intro x hx y hy
      simp only [] at hx hy
      exact h.pairedBeforeR x hx y (List.mem_of_mem_filter hy)

lemma inv_close (c : Config T) (h : Inv c) : Inv (close c).2 := by
  by_cases hc : c.closed = true
  · simp [close, hc]
    exact h
  · simp only [close, if_neg hc]
    refine { h with
      lenS := ?_
      lenR := ?_
      oneSide := ?_
      sortedS := ?_
      sortedR := ?_
      boundS := ?_
      boundR := ?_
      queueS := ?_
      queueR := ?_
      opsInv := ?_
      pairedBeforeS := ?_
      pairedBeforeR := ?_ }
    · rfl
    · rfl
    · left
      rfl
    · simp
    · simp
    · intro x hx
      simp at hx
    · intro x hx
      simp at hx
    · intro x hx
      simp at hx
    · intro x hx
      simp at hx
    · intro j oj hj
      refine OpInv_mono oj ?_ ?_ ?_ (h.opsInv j oj hj)
      · exact Nat.le_refl _
      · intro s hs
        rfl
      · intro hcl
        rfl
    · intro x hx y hy
      simp at hy
    · intro x hx y hy
      simp at hy

lemma inv_step [Inhabited T] {c c' : Config T} (hs : Step c c') (h : Inv c) : Inv c' := by
  cases hs with
  | spawn_send v dl => exact inv_spawnSend c v dl h
  | spawn_recv dl => exact inv_spawnRecv c dl h
  | send_entry i v dl hi => exact inv_send_until_entry c i v dl h hi
  | send_pair i v dl hi => exact inv_send_until_pair c i v dl h hi
  | send_ready i sid dl v0 hi hr => exact inv_send_ready c i sid dl v0 h hi
  | send_break i sid dl v0 hi hb => exact inv_send_break c i sid dl v0 h hi hb
  | send_cancel i sid dl v0 hi => exact inv_send_until_cancel c i sid dl v0 h hi
  | recv_entry i dl hi => exact inv_recv_until_entry c i dl h hi
  | recv_pair i dl hi => exact inv_recv_until_pair c i dl h hi
  | recv_ready i sid dl hi hr => exact inv_recv_until_ready c i sid dl h (Or.inl hi) hr
  | recv_break i sid dl hi hb => exact inv_recv_break c i sid dl h hi hb
  | recv_cancel i sid dl hi => exact inv_recv_until_cancel c i sid dl h hi
  | try_send_step v => exact inv_try_send c v h
  | try_recv_step => exact inv_try_recv c h
  | close_step => exact inv_close c h

/-- Every reachable configuration satisfies the full invariant. -/
lemma inv_reachable [Inhabited T] {c : Config T} (h : Reachable c) : Inv c := by
  induction h with
  | refl => exact inv_init
  | tail _ hstep ih => exact inv_step hstep ih

/-- The `closed` flag is monotone along every step: once true, it stays true. -/
lemma closed_mono [Inhabited T] {c c' : Config T} (hs : Step c c')
    (hc : c.closed = true) : c'.closed = true := by
  cases hs with
  | spawn_send v dl => simpa [spawnSend, Config.setOp] using hc
  | spawn_recv dl => simpa [spawnRecv, Config.setOp] using hc
  | send_entry i v dl hi => simp [send_until_entry, hc, Config.setOp]
  | send_pair i v dl hi => simp [send_until_pair, hc, Config.setOp]
  | send_ready i sid dl v0 hi hr => simpa [Config.setOp] using hc
  | send_break i sid dl v0 hi hb => simpa [Config.setOp] using hc
  | send_cancel i sid dl v0 hi =>
    simp only [send_until_cancel]
    split <;> simp [Config.setOp, Config.setSlot, hc]
  | recv_entry i dl hi => simp [recv_until_entry, hc, Config.setOp]
  | recv_pair i dl hi => simp [recv_until_pair, hc, Config.setOp]
  | recv_ready i sid dl hi hr =>
    simp [recv_until_ready, Config.setOp, Config.setSlot, hc]
  | recv_break i sid dl hi hb => simpa [Config.setOp] using hc
  | recv_cancel i sid dl hi =>
    simp only [recv_until_cancel]
    split <;> simp [recv_until_ready, Config.setOp, Config.setSlot, hc]
  | try_send_step v => simp [try_send, hc]
  | try_recv_step => simp [try_recv, hc]
  | close_step => simp [close, hc]

/-- Once a slot's `ready` flag is observed true it stays true: no step ever
stores false into it. -/
lemma ready_mono [Inhabited T] {c c' : Config T} (hs : Step c c') (h : Inv c)
    (sid : Nat) (hr : (c.getSlot sid).ready = true) :
    (c'.getSlot sid).ready = true := by
  have hlt : sid < c.nSlots := by
    by_contra hn
    have hb := h.slotsFresh sid (by omega)
    rw [hb] at hr
    cases hr
  cases hs with
  | spawn_send v dl => simpa [spawnSend, Config.setOp, Config.getSlot] using hr
  | spawn_recv dl => simpa [spawnRecv, Config.setOp, Config.getSlot] using hr
  | send_entry i v dl hi =>
    simp only [send_until_entry]
    split <;> simpa [Config.setOp, Config.getSlot] using hr
  | send_pair i v dl hi =>
    simp only [send_until_pair]
    split
    · simpa [Config.setOp, Config.getSlot] using hr
    · split
      · simp only [pairReceiver, Config.getSlot, slots_setOp, slots_setSlot]
        split
        · simp [Slot.put, Slot.signal]
        · exact hr
      · simp only [Config.getSlot, slots_setOp, slots_setSlot]
        rw [if_neg (by omega)]
        exact hr
  | send_ready i sid2 dl v0 hi hr2 => simpa [Config.setOp, Config.getSlot] using hr
  | send_break i sid2 dl v0 hi hb => simpa [Config.setOp, Config.getSlot] using hr
  | send_cancel i sid2 dl v0 hi =>
    simp only [send_until_cancel]
    split
    · simpa [Config.setOp, Config.getSlot] using hr
    · simp only [Config.getSlot, slots_setOp, slots_setSlot]
      split
      · simp [Slot.take, Slot.signal]
      · exact hr
  | recv_entry i dl hi =>
    simp only [recv_until_entry]
    split <;> simpa [Config.setOp, Config.getSlot] using hr
  | recv_pair i dl hi =>
    simp only [recv_until_pair]
    split
    · simpa [Config.setOp, Config.getSlot] using hr
    · split
      · simp only [pairSender, Config.getSlot, slots_setOp, slots_setSlot]
        split
        · simp [Slot.take, Slot.signal]
        · exact hr
      · simp only [Config.getSlot, slots_setOp, slots_setSlot]
        rw [if_neg (by omega)]
        exact hr
  | recv_ready i sid2 dl hi hr2 =>
    simp only [recv_until_ready, Config.getSlot, slots_setOp, slots_setSlot]
    split
    · simp [Slot.take, Slot.signal]
    · exact hr
  | recv_break i sid2 dl hi hb => simpa [Config.setOp, Config.getSlot] using hr
  | recv_cancel i sid2 dl hi =>
    simp only [recv_until_cancel]
    split
    · simp only [recv_until_ready, Config.getSlot, slots_setOp, slots_setSlot]
      split
      · simp [Slot.take, Slot.signal]
      · exact hr
    · simpa [Config.setOp, Config.getSlot] using hr
  | try_send_step v =>
    by_cases hc2 : c.closed = true
    · simpa [try_send, hc2] using hr
    · rcases hq : c.receivers with _ | ⟨f, rest⟩
      · simp only [try_send, hq, if_neg hc2]
        split <;> simpa using hr
      · by_cases hlen : c.receivers_len = 0
        · simpa [try_send, hc2, hlen] using hr
        · simp only [try_send, hc2, hq, if_false, Bool.false_eq_true, beq_iff_eq, hlen]
          simp only [pairReceiver, Config.getSlot, slots_setOp, slots_setSlot]
          split
          · simp [Slot.put, Slot.signal]
          · exact hr
  | try_recv_step =>
    by_cases hc2 : c.closed = true
    · simpa [try_recv, hc2] using hr
    · rcases hq : c.senders with _ | ⟨f, rest⟩
      · simp only [try_recv, hq, if_neg hc2]
        split <;> simpa using hr
      · by_cases hlen : c.senders_len = 0
        · simpa [try_recv, hc2, hlen] using hr
        · simp only [try_recv, hc2, hq, if_false, Bool.false_eq_true, beq_iff_eq, hlen]
          simp only [pairSender, Config.getSlot, slots_setOp, slots_setSlot]
          split
          · simp [Slot.take, Slot.signal]
          · exact hr
  | close_step =>
    simp only [close]
    split
    · exact hr
    · simpa [Config.getSlot] using hr

/-- Trace stage: one blocking `recv()` call spawned on the fresh queue. -/
def k1 : Config Nat := spawnRecv (init Nat) false

/-- Trace stage: the receiver passed its pre-lock `closed` fast-check. -/
def k2 : Config Nat := recv_until_entry k1 0 false

/-- Trace stage: the receiver found no sender and enqueued slot 0. -/
def k3 : Config Nat := recv_until_pair k2 0 false

/-- Trace stage: a `try_send(7)` paired with the waiting receiver slot 0. -/
def k4 : Config Nat := (try_send k3 7).2

/-- Trace stage: the receiver observed `ready` and took the value from its own
cell (the second `ready` store, by the owner). -/
def k5 : Config Nat := recv_until_ready k4 0 0 false

lemma reachable_k3 : Reachable k3 := by
  have h1 : Reachable k1 :=
    Relation.ReflTransGen.single (Step.spawn_recv (init Nat) false)
  have h2 : Reachable k2 := h1.tail (Step.recv_entry k1 0 false rfl)
  exact h2.tail (Step.recv_pair k2 0 false rfl)

lemma reachable_k5 : Reachable k5 := by
  have h4 : Reachable k4 := reachable_k3.tail (Step.try_send_step k3 7)
  exact h4.tail (Step.recv_ready k4 0 0 false rfl rfl)

/-- Trace stage: one `send_timeout(5, d)` call spawned on the fresh queue. -/
def t1 : Config Nat := spawnSend (init Nat) 5 true

/-- Trace stage: the sender passed its pre-lock `closed` fast-check. -/
def t2 : Config Nat := send_until_entry t1 0 5 true

/-- Trace stage: the sender found no receiver and enqueued slot 0 with its
value 5 in the cell. -/
def t3 : Config Nat := send_until_pair t2 0 5 true

/-- Trace stage: the sender's deadline elapsed and it left the wait loop. -/
def t4 : Config Nat := t3.setOp 0 (.sendCancel 0 true 5)

/-- Trace stage: the sender cancelled under the lock, removed its slot and
recovered the value 5 from the cell, reporting `Timeout(5)`. -/
def t5 : Config Nat := send_until_cancel t4 0 0 true 5

lemma reachable_t3 : Reachable t3 := by
  have h1 : Reachable t1 :=
    Relation.ReflTransGen.single (Step.spawn_send (init Nat) 5 true)
  have h2 : Reachable t2 := h1.tail (Step.send_entry t1 0 5 true rfl)
  exact h2.tail (Step.send_pair t2 0 5 true rfl)

lemma reachable_t5 : Reachable t5 := by
  have h4 : Reachable t4 :=
    reachable_t3.tail (Step.send_break t3 0 0 true 5 rfl (Or.inr rfl))
  exact h4.tail (Step.send_cancel t4 0 0 true 5 rfl)

/-- The fresh queue after one `close()` call. -/
def mc : Config Nat := (close (init Nat)).2

lemma reachable_mc : Reachable mc :=
  Relation.ReflTransGen.single (Step.close_step (init Nat))

/-- Mirror of the first assertion of the `smoke` test: `try_send(7)` on a
fresh queue reports `Full(7)`. -/
theorem smoke_try_send : (try_send (init Nat) 7).1 = .error (.Full 7) := by
  decide

/-- Mirror of the second assertion of the `smoke` test: `try_recv()` on a
fresh queue reports `Empty`. -/
theorem smoke_try_recv : (try_recv (init Nat)).1 = .error .Empty := by
  decide

/-- C5: in every reachable configuration at most one of the two wait queues is
non-empty; moreover a sender that finds a waiting receiver under the lock
pairs with it and never enqueues itself (`senders` unchanged), and
symmetrically for a receiver, which is how the invariant is preserved. -/
theorem C5_at_most_one_queue_nonempty [Inhabited T] (c : Config T)
    (h : Reachable c) :
    (c.senders = [] ∨ c.receivers = []) ∧
    (∀ i v dl f rest, c.closed = false → c.receivers = f :: rest →
      (send_until_pair c i v dl).senders = c.senders) ∧
    (∀ i dl f rest, c.closed = false → c.senders = f :: rest →
      (recv_until_pair c i dl).receivers = c.receivers) := by
  refine ⟨(inv_reachable h).oneSide, ?_, ?_⟩
  · intro i v dl f rest hcl hq
    simp [send_until_pair, hcl, hq, pairReceiver]
  · intro i dl f rest hcl hq
    simp [recv_until_pair, hcl, hq, pairSender]

/-- C5 witness: instantiated on the reachable configuration `k3` (one queued
receiver). -/
theorem C5_witness :
    (k3.senders = [] ∨ k3.receivers = []) ∧
    (send_until_pair k3 1 9 false).senders = k3.senders := by
  have h := C5_at_most_one_queue_nonempty k3 reachable_k3
  exact ⟨h.1, h.2.1 1 9 false 0 [] rfl rfl⟩

/-- C10: no reachable configuration has ever panicked in the `unwrap` inside
`Blocked::take`, and every slot resident in the `senders` queue holds
`Some(v)` in its cell with `ready` still false — so both take sites (the
receiver dequeuing a sender and the sender's own cancellation path) find a
populated cell. -/
theorem C10_take_unwrap_safe [Inhabited T] (c : Config T) (h : Reachable c) :
    c.panicked = false ∧
    (∀ sid ∈ c.senders,
      ((c.getSlot sid).cell).isSome = true ∧ (c.getSlot sid).ready = false) := by
  have hi := inv_reachable h
  refine ⟨hi.panicFree, fun sid hs => ?_⟩
  obtain ⟨hrole, hready⟩ := hi.queueS sid hs
  exact ⟨hi.senderCell sid hrole hready, hready⟩

/-- C10 witness: instantiated on the reachable configuration `t3` (one queued
sender whose cell holds 5). -/
theorem C10_witness :
    t3.panicked = false ∧ ((t3.getSlot 0).cell).isSome = true ∧
    (t3.getSlot 0).ready = false := by
  have h := C10_take_unwrap_safe t3 reachable_t3
  exact ⟨h.1, h.2 0 (by decide)⟩

/-- C7: a successful `close()` empties both wait queues, unparks exactly the
drained waiters (appending both queues, senders first, to the unpark log),
leaves every slot record — cells and `ready` flags — untouched, and stores
zero into both length hints. -/
theorem C7_close_drains (c : Config T) (h : c.closed = false) :
    (close c).1 = true ∧
    (close c).2.senders = [] ∧
    (close c).2.receivers = [] ∧
    (close c).2.senders_len = 0 ∧
    (close c).2.receivers_len = 0 ∧
    (close c).2.slots = c.slots ∧
    (close c).2.unparked = c.unparked ++ c.senders ++ c.receivers := by
  simp [close, h]

/-- C7 witness: closing the configuration with one queued receiver unparks it
and leaves its slot intact. -/
theorem C7_witness :
    (close k3).1 = true ∧
    (close k3).2.senders = [] ∧
    (close k3).2.receivers = [] ∧
    (close k3).2.senders_len = 0 ∧
    (close k3).2.receivers_len = 0 ∧
    (close k3).2.slots = k3.slots ∧
    (close k3).2.unparked = k3.unparked ++ k3.senders ++ k3.receivers :=
  C7_close_drains k3 rfl

/-- C6: `closed` transitions only from false to true (every step preserves a
true flag), `close()` returns true exactly when it performed the transition
(so the first call returns true and every later call false), and
`is_closed()` returns the flag. -/
theorem C6_close_idempotent [Inhabited T] (c : Config T) :
    (close c).1 = !c.closed ∧
    (close c).2.closed = true ∧
    (close ((close c).2)).1 = false ∧
    is_closed c = c.closed ∧
    (∀ c2, Step c c2 → c.closed = true → c2.closed = true) := by
  refine ⟨?_, ?_, ?_, rfl, fun c2 hs hcl => closed_mono hs hcl⟩
  · by_cases hc : c.closed = true
    · simp [close, hc]
    · have hc2 : c.closed = false := by simpa using hc
      simp [close, hc2]
  · by_cases hc : c.closed = true
    · simp [close, hc]
    · have hc2 : c.closed = false := by simpa using hc
      simp [close, hc2]
  · by_cases hc : c.closed = true
    · simp [close, hc]
    · have hc2 : c.closed = false := by simpa using hc
      simp [close, hc2]

/-- C6 witness: on the fresh queue the first close returns true, the second
false, and a spawn step after closing keeps the flag set. -/
theorem C6_witness :
    (close (init Nat)).1 = !(init Nat).closed ∧
    (close ((close (init Nat)).2)).1 = false ∧
    (spawnSend mc 5 false).closed = true := by
  have h := C6_close_idempotent (init Nat)
  have h2 := C6_close_idempotent (T := Nat) mc
  exact ⟨h.1, h.2.2.1, h2.2.2.2.2 (spawnSend mc 5 false) (Step.spawn_send mc 5 false) rfl⟩

/-- C1 (counterexample): on the trace where a `recv()` blocks and a
`try_send(7)` hands over through its cell, the receiver's slot sees TWO
stores of `ready := true`: first by the handoff peer (inside `put`), then by
the slot's owning thread (inside its own `take` after waking) — and the
second store is by the owner, an agent the claim does not allow.  This
refutes both "stored true at most once" and "only by the handoff peer or the
closing thread". -/
theorem C1_counterexample :
    Reachable k5 ∧
    (k5.getSlot 0).readyStores = [StoreAgent.owner, StoreAgent.peer] ∧
    ((k5.getSlot 0).readyStores.length = 1 → False) ∧
    StoreAgent.owner ∈ (k5.getSlot 0).readyStores := by
  exact ⟨reachable_k5, by decide, by decide, by decide⟩

/-- C1 (amended): in every reachable configuration, each slot's `ready` flag
is true exactly when some store happened (it starts false and no step resets
it — last conjunct), the closing thread never stores `ready`, a sender slot
receives at most one store (by the dequeuing peer, or by the owner on the
cancellation path), and a receiver slot at most two (the peer's `put`, then
possibly the owner's `take`). -/
theorem C1_ready_store_discipline [Inhabited T] (c : Config T) (h : Reachable c)
    (sid : Nat) :
    ((c.getSlot sid).ready = true ↔ (c.getSlot sid).readyStores ≠ []) ∧
    StoreAgent.closer ∉ (c.getSlot sid).readyStores ∧
    ((c.getSlot sid).role = .sender → (c.getSlot sid).readyStores.length ≤ 1) ∧
    (c.getSlot sid).readyStores.length ≤ 2 ∧
    (∀ c2, Step c c2 → (c.getSlot sid).ready = true → (c2.getSlot sid).ready = true) := by
  have hi := inv_reachable h
  refine ⟨hi.storesMono sid, hi.storesNoCloser sid, ?_, ?_,
    fun c2 hs hr => ready_mono hs hi sid hr⟩
  · intro hrole
    rcases hi.storesSender sid hrole with h0 | h0 | h0 <;> simp [h0]
  · cases hrole : (c.getSlot sid).role with
    | sender =>
      rcases hi.storesSender sid hrole with h0 | h0 | h0 <;> simp [h0]
    | receiver =>
      rcases hi.storesReceiver sid hrole with h0 | h0 | h0 <;> simp [h0]

/-- C1 witness: the amended discipline instantiated on the completed-handoff
configuration `k5`, slot 0 (two stores, owner then peer). -/
theorem C1_witness :
    ((k5.getSlot 0).ready = true ↔ (k5.getSlot 0).readyStores ≠ []) ∧
    StoreAgent.closer ∉ (k5.getSlot 0).readyStores ∧
    (k5.getSlot 0).readyStores.length ≤ 2 := by
  have h := C1_ready_store_discipline k5 reachable_k5 0
  exact ⟨h.1, h.2.1, h.2.2.2.1⟩

/-- Trace stage: one `send(4)` call spawned on the already-closed queue. -/
def u1 : Config Nat := spawnSend mc 4 false

/-- Trace stage: the pre-lock fast check observed `closed` and completed the
call with `Disconnected(4)` — no slot, no park. -/
def u2 : Config Nat := send_until_entry u1 0 4 false

lemma reachable_u2 : Reachable u2 := by
  have h1 : Reachable u1 := reachable_mc.tail (Step.spawn_send mc 4 false)
  exact h1.tail (Step.send_entry u1 0 4 false rfl)

/-- C2: on every reachable configuration, `try_send(v)` returns
`Disconnected(v)` when the channel is closed, `Full(v)` when no receiver is
waiting, and otherwise dequeues the front waiting receiver, writes `Some(v)`
into its cell, marks it ready and returns `Ok`; the `senders` queue is never
touched, so no sender slot is enqueued. -/
theorem C2_try_send_spec [Inhabited T] (c : Config T) (v : T) (h : Reachable c) :
    (c.closed = true → try_send c v = (.error (.Disconnected v), c)) ∧
    (c.closed = false → c.receivers = [] → try_send c v = (.error (.Full v), c)) ∧
    (∀ f rest, c.closed = false → c.receivers = f :: rest →
      (try_send c v).1 = .ok () ∧
      ((try_send c v).2.getSlot f).cell = some v ∧
      ((try_send c v).2.getSlot f).ready = true ∧
      (try_send c v).2.receivers = rest) ∧
    (try_send c v).2.senders = c.senders := by
  have hi := inv_reachable h
  refine ⟨?_, ?_, ?_, ?_⟩
  · intro hcl
    simp [try_send, hcl]
  · intro hcl hq
    have hlen : c.receivers_len = 0 := by
      rw [hi.lenR, hq]
      rfl
    simp [try_send, hcl, hlen]
  · intro f rest hcl hq
    have hlen : c.receivers_len = rest.length + 1 := by
      rw [hi.lenR, hq]
      rfl
    refine ⟨?_, ?_, ?_, ?_⟩ <;>
      simp [try_send, hcl, hlen, hq, pairReceiver, Slot.put, Slot.signal,
        Config.getSlot, slots_setSlot]
  · by_cases hcl : c.closed = true
    · simp [try_send, hcl]
    · rcases hq : c.receivers with _ | ⟨f, rest⟩
      · simp only [try_send, hq, if_neg hcl]
        split <;> rfl
      · by_cases hlen0 : c.receivers_len = 0
        · simp [try_send, hcl, hlen0]
        · simp [try_send, hcl, hlen0, hq, pairReceiver]

/-- C2 witness: on the fresh queue `try_send(7)` is `Full(7)`; on the
configuration with one waiting receiver it hands 7 over and returns `Ok`. -/
theorem C2_witness :
    try_send (init Nat) 7 = (.error (.Full 7), init Nat) ∧
    (try_send k3 7).1 = .ok () ∧
    ((try_send k3 7).2.getSlot 0).cell = some 7 ∧
    (try_send k3 7).2.senders = k3.senders := by
  have h0 := C2_try_send_spec (init Nat) 7 Relation.ReflTransGen.refl
  have h3 := C2_try_send_spec k3 7 reachable_k3
  obtain ⟨ha, hb, hc2, hd⟩ := h3.2.2.1 0 [] rfl rfl
  exact ⟨h0.2.1 rfl rfl, ha, hb, h3.2.2.2⟩

/-- C3: every failing send carries the original value: a `try_send(v)` error
is `Full(v)` or `Disconnected(v)` with the same `v`; every completed
`send_until` operation that reports an error reports `Timeout` or
`Disconnected` around exactly the value the call was given (on the
cancellation path the value is the one recovered from the slot's cell); and
the `send` wrapper repacks `Disconnected(v)` as `SendError(v)` unchanged. -/
theorem C3_failing_send_returns_value [Inhabited T] (c : Config T)
    (h : Reachable c) :
    (∀ v e, (try_send c v).1 = .error e → e = .Full v ∨ e = .Disconnected v) ∧
    (∀ i dl v0 e, c.ops i = some (.sendDone dl v0 (.error e)) →
      e = .Timeout v0 ∨ e = .Disconnected v0) ∧
    (∀ v : T, send_result (.error (.Disconnected v)) = some (.error ⟨v⟩)) := by
  have hi := inv_reachable h
  refine ⟨?_, ?_, fun v => rfl⟩
  · intro v e he
    by_cases hcl : c.closed = true
    · simp [try_send, hcl] at he
      exact Or.inr he.symm
    · by_cases hlen0 : c.receivers_len = 0
      · simp [try_send, hcl, hlen0] at he
        exact Or.inl he.symm
      · rcases hq : c.receivers with _ | ⟨f, rest⟩
        · simp [try_send, hcl, hlen0, hq] at he
          exact Or.inl he.symm
        · simp [try_send, hcl, hlen0, hq, pairReceiver] at he
  · intro i dl v0 e hop
    obtain ⟨ht, hd⟩ := hi.opsInv i _ hop
    cases e with
    | Timeout w => exact Or.inl (by rw [(ht w rfl).1])
    | Disconnected w => exact Or.inr (by rw [hd w rfl])

/-- C3 witness: on the timed-out-send trace `t5`, operation 0 completed with
exactly `Timeout(5)` — the value it was called with. -/
theorem C3_witness :
    t5.ops 0 = some (.sendDone true 5 (.error (.Timeout 5))) ∧
    ((SendTimeoutError.Timeout 5 : SendTimeoutError Nat) = .Timeout 5 ∨
      (SendTimeoutError.Timeout 5 : SendTimeoutError Nat) = .Disconnected 5) := by
  have h := C3_failing_send_returns_value t5 reachable_t5
  exact ⟨by decide, h.2.1 0 true 5 (.Timeout 5) (by decide)⟩

/-- C8: every completed `send_until` operation without a deadline (the
`send` variant) reports either success or `Disconnected`, never `Timeout`;
so the result always survives the mapping in `send` (whose `Timeout` arm is
`unreachable!()`, rendered as `none` by `send_result`), and `Disconnected(v)`
maps to `SendError(v)`. -/
theorem C8_send_never_timeout [Inhabited T] (c : Config T) (h : Reachable c) :
    (∀ i v0 r, c.ops i = some (.sendDone false v0 r) →
      (∀ v, r ≠ .error (.Timeout v)) ∧ (send_result r).isSome = true) ∧
    (∀ v : T, send_result (.error (.Disconnected v)) = some (.error ⟨v⟩)) ∧
    (send_result (.ok () : SendUntilResult T)).isSome = true := by
  have hi := inv_reachable h
  refine ⟨?_, fun v => rfl, rfl⟩
  intro i v0 r hop
  obtain ⟨ht, hd⟩ := hi.opsInv i _ hop
  constructor
  · intro v hv
    have h2 := (ht v hv).2
    cases h2
  · cases r with
    | ok u =>
      cases u
      rfl
    | error e =>
      cases e with
      | Timeout w =>
        have h2 := (ht w rfl).2
        cases h2
      | Disconnected w => rfl

/-- C8 witness: the no-deadline send on the closed queue completed with
`Disconnected(4)`, and the `send` mapping is defined on it (not the
`unreachable!()` arm). -/
theorem C8_witness :
    u2.ops 0 = some (.sendDone false 4 (.error (.Disconnected 4))) ∧
    (send_result (.error (.Disconnected 4) : SendUntilResult Nat)).isSome = true := by
  have h := C8_send_never_timeout u2 reachable_u2
  exact ⟨by decide, (h.1 0 4 _ (by decide)).2⟩

/-- C4: waiter queues are FIFO.  Slot ids are allocated in arrival order, and
in every reachable configuration both wait queues and both pairing logs are
strictly increasing in id, every already-paired waiter is older than every
waiter still queued (so pairings happen in arrival order), a pairing
operation dequeues exactly the front (oldest) slot of the opposing queue, and
a blocking call that cannot pair enqueues its fresh slot at the back. -/
theorem C4_fifo_queues [Inhabited T] (c : Config T) (h : Reachable c) :
    c.senders.Pairwise (· < ·) ∧
    c.receivers.Pairwise (· < ·) ∧
    c.pairedSenders.Pairwise (· < ·) ∧
    c.pairedReceivers.Pairwise (· < ·) ∧
    (∀ x ∈ c.pairedSenders, ∀ y ∈ c.senders, x < y) ∧
    (∀ x ∈ c.pairedReceivers, ∀ y ∈ c.receivers, x < y) ∧
    (∀ f rest v, c.closed = false → c.receivers = f :: rest →
      (try_send c v).2.pairedReceivers = c.pairedReceivers ++ [f] ∧
      (try_send c v).2.receivers = rest) ∧
    (∀ i v dl, c.closed = false → c.receivers = [] →
      (send_until_pair c i v dl).senders = c.senders ++ [c.nSlots]) := by
  have hi := inv_reachable h
  refine ⟨hi.sortedS, hi.sortedR, hi.sortedPS, hi.sortedPR, hi.pairedBeforeS,
    hi.pairedBeforeR, ?_, ?_⟩
  · intro f rest v hcl hq
    have hlen : c.receivers_len = rest.length + 1 := by
      rw [hi.lenR, hq]
      rfl
    constructor <;> simp [try_send, hcl, hlen, hq, pairReceiver]
  · intro i v dl hcl hq
    simp [send_until_pair, hcl, hq]

/-- C4 witness: pairing on `k3` dequeues the front receiver slot 0 and logs
it; enqueueing on the fresh queue appends at the back. -/
theorem C4_witness :
    k3.receivers.Pairwise (· < ·) ∧
    (try_send k3 7).2.pairedReceivers = k3.pairedReceivers ++ [0] ∧
    (try_send k3 7).2.receivers = [] ∧
    (send_until_pair (init Nat) 0 5 true).senders = (init Nat).senders ++ [0] := by
  have h3 := C4_fifo_queues k3 reachable_k3
  have h0 := C4_fifo_queues (init Nat) Relation.ReflTransGen.refl
  obtain ⟨ha, hb⟩ := h3.2.2.2.2.2.2.1 0 [] 7 rfl rfl
  exact ⟨h3.2.1, ha, hb, h0.2.2.2.2.2.2.2 0 5 true rfl rfl⟩

/-- C9: a `send*`/`recv*` initiated when `closed` is already set completes
with `Disconnected` at its very first step — the pre-lock fast-check — and
neither enqueues a slot nor parks: `try_send`/`try_recv` reject without
touching the state, the entry step of a blocking call goes straight to its
done state, the flag stays set along every step, and any step taken by an op
still at its start point in a closed configuration leaves every queue and
every slot untouched. -/
theorem C9_post_close_refusal [Inhabited T] (c : Config T) (h : Reachable c)
    (hc : c.closed = true) :
    (∀ v, try_send c v = (.error (.Disconnected v), c)) ∧
    (try_recv c = (.error .Disconnected, c)) ∧
    (∀ i v dl, send_until_entry c i v dl =
      c.setOp i (.sendDone dl v (.error (.Disconnected v)))) ∧
    (∀ i dl, recv_until_entry c i dl =
      c.setOp i (.recvDone dl (.error .Disconnected))) ∧
    (∀ c2, Step c c2 → c2.closed = true) ∧
    (∀ c2 i v dl, Step c c2 → c.ops i = some (.sendStart v dl) →
      c2.ops i = some (.sendStart v dl) ∨
      (c2.ops i = some (.sendDone dl v (.error (.Disconnected v))) ∧
        c2.senders = c.senders ∧ c2.slots = c.slots)) ∧
    (∀ c2 i dl, Step c c2 → c.ops i = some (.recvStart dl) →
      c2.ops i = some (.recvStart dl) ∨
      (c2.ops i = some (.recvDone dl (.error .Disconnected)) ∧
        c2.receivers = c.receivers ∧ c2.slots = c.slots)) := by
  have hi := inv_reachable h
  refine ⟨?_, ?_, ?_, ?_, fun c2 hs => closed_mono hs hc, ?_, ?_⟩
  · intro v
    simp [try_send, hc]
  · simp [try_recv, hc]
  · intro i v dl
    simp [send_until_entry, hc]
  · intro i dl
    simp [recv_until_entry, hc]
  · intro c2 i v dl hs hop
    cases hs with
    | spawn_send w dl2 =>
      left
      have hlt := lt_nOps_of_ops c hi hop
      simp only [spawnSend, ops_setOp]
      rw [if_neg (by omega)]
      exact hop
    | spawn_recv dl2 =>
      left
      have hlt := lt_nOps_of_ops c hi hop
      simp only [spawnRecv, ops_setOp]
      rw [if_neg (by omega)]
      exact hop
    | send_entry j w dl2 hj =>
      by_cases hji : j = i
      · subst hji
        rw [hop] at hj
        cases hj
        right
        refine ⟨?_, ?_, ?_⟩ <;> simp [send_until_entry, hc, Config.setOp]
      · left
        simp only [send_until_entry, if_pos hc, ops_setOp]
        rw [if_neg fun he => hji he.symm]
        exact hop
    | send_pair j w dl2 hj =>
      have hji : j ≠ i := by
        intro he
        rw [he, hop] at hj
        cases hj
      left
      simp only [send_until_pair, if_pos hc, ops_setOp]
      rw [if_neg fun he => hji he.symm]
      exact hop
    | send_ready j sid dl2 v0 hj hr =>
      have hji : j ≠ i := by
        intro he
        rw [he, hop] at hj
        cases hj
      left
      simp only [ops_setOp]
      rw [if_neg fun he => hji he.symm]
      exact hop
    | send_break j sid dl2 v0 hj hb =>
      have hji : j ≠ i := by
        intro he
        rw [he, hop] at hj
        cases hj
      left
      simp only [ops_setOp]
      rw [if_neg fun he => hji he.symm]
      exact hop
    | send_cancel j sid dl2 v0 hj =>
      have hji : j ≠ i := by
        intro he
        rw [he, hop] at hj
        cases hj
      left
      simp only [send_until_cancel]
      split
      · simp only [ops_setOp]
        rw [if_neg fun he => hji he.symm]
        exact hop
      · simp only [ops_setOp, ops_setSlot]
        rw [if_neg fun he => hji he.symm]
        exact hop
    | recv_entry j dl2 hj =>
      have hji : j ≠ i := by
        intro he
        rw [he, hop] at hj
        cases hj
      left
      simp only [recv_until_entry, if_pos hc, ops_setOp]
      rw [if_neg fun he => hji he.symm]
      exact hop
    | recv_pair j dl2 hj =>
      have hji : j ≠ i := by
        intro he
        rw [he, hop] at hj
        cases hj
      left
      simp only [recv_until_pair, if_pos hc, ops_setOp]
      rw [if_neg fun he => hji he.symm]
      exact hop
    | recv_ready j sid dl2 hj hr =>
      have hji : j ≠ i := by
        intro he
        rw [he, hop] at hj
        cases hj
      left
      simp only [recv_until_ready, ops_setOp, ops_setSlot]
      rw [if_neg fun he => hji he.symm]
      exact hop
    | recv_break j sid dl2 hj hb =>
      have hji : j ≠ i := by
        intro he
        rw [he, hop] at hj
        cases hj
      left
      simp only [ops_setOp]
      rw [if_neg fun he => hji he.symm]
      exact hop
    | recv_cancel j sid dl2 hj =>
      have hji : j ≠ i := by
        intro he
        rw [he, hop] at hj
        cases hj
      left
      simp only [recv_until_cancel]
      split
      · simp only [recv_until_ready, ops_setOp, ops_setSlot]
        rw [if_neg fun he => hji he.symm]
        exact hop
      · simp only [ops_setOp]
        rw [if_neg fun he => hji he.symm]
        exact hop
    | try_send_step w =>
      left
      simp only [try_send, if_pos hc]
      exact hop
    | try_recv_step =>
      left
      simp only [try_recv, if_pos hc]
      exact hop
    | close_step =>
      left
      simp only [close, if_pos hc]
      exact hop
  · intro c2 i dl hs hop
    cases hs with
    | spawn_send w dl2 =>
      left
      have hlt := lt_nOps_of_ops c hi hop
      simp only [spawnSend, ops_setOp]
      rw [if_neg (by omega)]
      exact hop
    | spawn_recv dl2 =>
      left
      have hlt := lt_nOps_of_ops c hi hop
      simp only [spawnRecv, ops_setOp]
      rw [if_neg (by omega)]
      exact hop
    | send_entry j w dl2 hj =>
      have hji : j ≠ i := by
        intro he
        rw [he, hop] at hj
        cases hj
      left
      simp only [send_until_entry, if_pos hc, ops_setOp]
      rw [if_neg fun he => hji he.symm]
      exact hop
    | send_pair j w dl2 hj =>
      have hji : j ≠ i := by
        intro he
        rw [he, hop] at hj
        cases hj
      left
      simp only [send_until_pair, if_pos hc, ops_setOp]
      rw [if_neg fun he => hji he.symm]
      exact hop
    | send_ready j sid dl2 v0 hj hr =>
      have hji : j ≠ i := by
        intro he
        rw [he, hop] at hj
        cases hj
      left
      simp only [ops_setOp]
      rw [if_neg fun he => hji he.symm]
      exact hop
    | send_break j sid dl2 v0 hj hb =>
      have hji : j ≠ i := by
        intro he
        rw [he, hop] at hj
        cases hj
      left
      simp only [ops_setOp]
      rw [if_neg fun he => hji he.symm]
      exact hop
    | send_cancel j sid dl2 v0 hj =>
      have hji : j ≠ i := by
        intro he
        rw [he, hop] at hj
        cases hj
      left
      simp only [send_until_cancel]
      split
      · simp only [ops_setOp]
        rw [if_neg fun he => hji he.symm]
        exact hop
      · simp only [ops_setOp, ops_setSlot]
        rw [if_neg fun he => hji he.symm]
        exact hop
    | recv_entry j dl2 hj =>
      by_cases hji : j = i
      · subst hji
        rw [hop] at hj
        cases hj
        right
        refine ⟨?_, ?_, ?_⟩ <;> simp [recv_until_entry, hc, Config.setOp]
      · left
        simp only [recv_until_entry, if_pos hc, ops_setOp]
        rw [if_neg fun he => hji he.symm]
        exact hop
    | recv_pair j dl2 hj =>
      have hji : j ≠ i := by
        intro he
        rw [he, hop] at hj
        cases hj
      left
      simp only [recv_until_pair, if_pos hc, ops_setOp]
      rw [if_neg fun he => hji he.symm]
      exact hop
    | recv_ready j sid dl2 hj hr =>
      have hji : j ≠ i := by
        intro he
        rw [he, hop] at hj
        cases hj
      left
      simp only [recv_until_ready, ops_setOp, ops_setSlot]
      rw [if_neg fun he => hji he.symm]
      exact hop
    | recv_break j sid dl2 hj hb =>
      have hji : j ≠ i := by
        intro he
        rw [he, hop] at hj
        cases hj
      left
      simp only [ops_setOp]
      rw [if_neg fun he => hji he.symm]
      exact hop
    | recv_cancel j sid dl2 hj =>
      have hji : j ≠ i := by
        intro he
        rw [he, hop] at hj
        cases hj
      left
      simp only [recv_until_cancel]
      split
      · simp only [recv_until_ready, ops_setOp, ops_setSlot]
        rw [if_neg fun he => hji he.symm]
        exact hop
      · simp only [ops_setOp]
        rw [if_neg fun he => hji he.symm]
        exact hop
    | try_send_step w =>
      left
      simp only [try_send, if_pos hc]
      exact hop
    | try_recv_step =>
      left
      simp only [try_recv, if_pos hc]
      exact hop
    | close_step =>
      left
      simp only [close, if_pos hc]
      exact hop

/-- C9 witness: on the closed queue `mc`, `try_send(9)` rejects with the
state unchanged and the entry step of the spawned `send(4)` goes straight to
`Disconnected(4)`. -/
theorem C9_witness :
    try_send mc 9 = (.error (.Disconnected 9), mc) ∧
    send_until_entry u1 0 4 false =
      u1.setOp 0 (.sendDone false 4 (.error (.Disconnected 4))) := by
  have h1 := C9_post_close_refusal mc reachable_mc rfl
  have h2 := C9_post_close_refusal u1
    (reachable_mc.tail (Step.spawn_send mc 4 false)) rfl
  exact ⟨h1.1 9, h2.2.2.1 0 4 false⟩

end ZeroChannel
